import Mathlib

/-!
# Shadow mapping (soft shadows): offset texture generator and light state

A shallow embedding of `main.cpp` of the "Shadow Mapping Soft" example:

* `buildOffsetTex` with its helper `jitter` (the table of jittered sampling offsets),
* `LightParams` with `initMatrices` / `recaliberate`,
* `setup` and `key_callback` (the host state changed by the keyboard),
* the matrices uploaded by `firstDrawPass` and `secondDrawPass`,

and of `readShader`, `createShader` and `init` of `BasicFunctions.h`. The fragment shader is
not among the sources; its filtering policy is modelled from the specification.

Conventions of the embedding.

* C `int` is modelled by `Int` (no overflow: the sizes are small constants in the program);
  `/` and `%` on `int` are `Int.tdiv` and `Int.tmod`, `&` is `Int.land`.
* `float` is modelled by exact arithmetic in a field `α` (`ℚ` for the rational part, `ℝ`
  where `sqrtf` and `cosf` are needed); `sqrtf` and `cosf` are parameters of the generator.
  Where the rounding of `float` decides a property (the height of the light under key
  events), `roundF32` is the rounding of IEEE 754 binary32 and `key_callback_float` is the
  position computed with it.
* `rand()` is modelled by a stream `rand : Nat → Int` (`rand n` is the value returned by the
  `n`-th call made by the generator) together with a call counter in the loop state.
* The heap buffer `data` is modelled by the trace of its writes `(index, value)` in program
  order, so that a write outside the allocated length stays observable.
* `glm::lookAt` and `glm::perspective` belong to the external library glm and are taken as
  parameters (`GlmLib`); so is `glm::translate` in the render passes. Where their values
  matter, `glmLib` gives the two functions as glm defines them (right-handed, depth range
  `-1 .. 1`), for a given square root and a given tangent of half the field of view.
* `std::ifstream` is modelled by a file system `fs : String → Option Bytes` that gives the
  bytes of a file (`none` when the stream is not good) and by a parameter `textMode` for
  what the stream, opened in text mode, delivers for these bytes. The cast `(unsigned int)`
  of the file size is a reduction modulo `2^32`.
* `std::cout` and the calls of the GL library are modelled by a trace of events; the answers
  of the GL driver are parameters (`GLDriver`).
-/

set_option linter.unusedVariables false

namespace ShadowMappingSoft

/-! ## Loops -/

/-- The loop `for (int k = k0; k < stop; k += step) st = body k st`, started at `k`. -/
def forLoop {σ : Type} (stop step : Int) (hstep : 0 < step) (body : Int → σ → σ)
    (k : Int) (st : σ) : σ :=
  if k < stop then forLoop stop step hstep body (k + step) (body k st) else st
termination_by (stop - k).toNat
decreasing_by omega

/-! ## Offset texture generator -/

/-- Macro `PI` of main.cpp (`#define PI 3.14159265`), read as an exact decimal. -/
def PI {α : Type} [Field α] : α := 314159265 / 100000000

/-- The type `glm::vec4`: four scalars. -/
structure vec4 (α : Type) where
  x : α
  y : α
  z : α
  w : α
deriving DecidableEq, Repr

/-- Function `jitter()`: `((float)rand() / (float)RAND_MAX) - 0.5f`, where `r` is the value
that the call of `rand()` returned. -/
def jitter {α : Type} [Field α] (RAND_MAX r : Int) : α :=
  (r : α) / (RAND_MAX : α) - 1 / 2

/-- Statement `x1 = k % (samplesU);`. -/
def x1 (samplesU k : Int) : Int := Int.tmod k samplesU

/-- Statement `y1 = (samples - 1 - k) / samplesU;`. -/
def y1 (samples samplesU k : Int) : Int := Int.tdiv (samples - 1 - k) samplesU

/-- Statement `x2 = (k + 1) & samplesU;` (a bitwise and in the source). -/
def x2 (samplesU k : Int) : Int := Int.land (k + 1) samplesU

/-- Statement `y2 = (samples - 1 - k - 1) / samplesU;`. -/
def y2 (samples samplesU k : Int) : Int := Int.tdiv (samples - 1 - k - 1) samplesU

/-- Block "Center on grid and jitter": the four assignments `v.x = (x1 + 0.5f) + jitter();`,
`v.y = (y1 + 0.5f) + jitter();`, `v.z = (x1 + 0.5f) + jitter();`,
`v.w = (y1 + 0.5f) + jitter();`, with `j0 .. j3` the four results of `jitter()`.
The source reads `x1` and `y1` in all four lines; `x2` and `y2` are in scope but not read. -/
def centerAndJitter {α : Type} [Field α] (x1 y1 x2 y2 : Int) (j0 j1 j2 j3 : α) : vec4 α :=
  { x := ((x1 : α) + 1 / 2) + j0
    y := ((y1 : α) + 1 / 2) + j1
    z := ((x1 : α) + 1 / 2) + j2
    w := ((y1 : α) + 1 / 2) + j3 }

/-- Block "Scale between 0 and 1": `v.x /= samplesU; v.y /= samplesV; v.z /= samplesU;
v.w /= samplesV;`. -/
def scaleToUnit {α : Type} [Field α] (samplesU samplesV : Int) (v : vec4 α) : vec4 α :=
  { x := v.x / (samplesU : α)
    y := v.y / (samplesV : α)
    z := v.z / (samplesU : α)
    w := v.w / (samplesV : α) }

/-- The vector `v` of one loop iteration just before the warp, when `calls` calls of `rand()`
have been made before the iteration. -/
def normalised {α : Type} [Field α] (RAND_MAX : Int) (rand : Nat → Int)
    (samplesU samplesV k : Int) (calls : Nat) : vec4 α :=
  let samples := samplesU * samplesV
  scaleToUnit samplesU samplesV
    (centerAndJitter (x1 samplesU k) (y1 samples samplesU k) (x2 samplesU k)
      (y2 samples samplesU k)
      (jitter RAND_MAX (rand calls)) (jitter RAND_MAX (rand (calls + 1)))
      (jitter RAND_MAX (rand (calls + 2))) (jitter RAND_MAX (rand (calls + 3))))

/-- Statement `int cell = ((k / 2) * size * size + j * size + i) * 4;`. -/
def cellIndex (size i j k : Int) : Int := (Int.tdiv k 2 * size * size + j * size + i) * 4

/-- Block "Warp to disk": the four values stored at `cell + 0 .. cell + 3`, returned as the
components `x y z w`. The source calls `cosf` in all four lines. -/
def warpToDisk {α : Type} [Field α] (sqrtf cosf : α → α) (v : vec4 α) : vec4 α :=
  { x := sqrtf v.y * cosf (2 * PI * v.x)
    y := sqrtf v.y * cosf (2 * PI * v.x)
    z := sqrtf v.w * cosf (2 * PI * v.z)
    w := sqrtf v.w * cosf (2 * PI * v.z) }

/-- State of the generator loops: the writes into `data` so far, in program order, and the
number of calls of `rand()` so far. -/
structure GenState (α : Type) where
  writes : List (Int × α)
  calls : Nat

/-- Body of the innermost loop of `buildOffsetTex` for the loop variables `i j k`. -/
def innerBody {α : Type} [Field α] (sqrtf cosf : α → α) (RAND_MAX : Int) (rand : Nat → Int)
    (size samplesU samplesV i j k : Int) (st : GenState α) : GenState α :=
  let v : vec4 α := normalised RAND_MAX rand samplesU samplesV k st.calls
  let cell := cellIndex size i j k
  let d := warpToDisk sqrtf cosf v
  { writes := st.writes ++ [(cell + 0, d.x), (cell + 1, d.y), (cell + 2, d.z), (cell + 3, d.w)]
    calls := st.calls + 4 }

/-- The three nested loops of `buildOffsetTex`, run from the loop state `st`. -/
def offsetLoops {α : Type} [Field α] (sqrtf cosf : α → α) (RAND_MAX : Int) (rand : Nat → Int)
    (size samplesU samplesV : Int) (st : GenState α) : GenState α :=
  let samples := samplesU * samplesV
  forLoop size 1 (by decide)
    (fun i st =>
      forLoop size 1 (by decide)
        (fun j st =>
          forLoop samples 2 (by decide)
            (fun k st => innerBody sqrtf cosf RAND_MAX rand size samplesU samplesV i j k st)
            0 st)
        0 st)
    0 st

/-- What a run of `buildOffsetTex` does: the length `bufSize` of the allocated buffer, the
writes into the buffer in program order, and the three dimensions passed to `glTexStorage3D`
and `glTexSubImage3D`. -/
structure OffsetTex (α : Type) where
  bufSize : Int
  writes : List (Int × α)
  width : Int
  height : Int
  depth : Int

/-- Function `buildOffsetTex(int size, int samplesU, int samplesV)`. -/
def buildOffsetTex {α : Type} [Field α] (sqrtf cosf : α → α) (RAND_MAX : Int)
    (rand : Nat → Int) (size samplesU samplesV : Int) : OffsetTex α :=
  let samples := samplesU * samplesV
  let bufSize := size * size * samples * 2
  let st := offsetLoops sqrtf cosf RAND_MAX rand size samplesU samplesV ⟨[], 0⟩
  { bufSize := bufSize
    writes := st.writes
    width := size
    height := size
    depth := Int.tdiv samples 2 }

/-- The indices of the buffer written by a run, in program order. -/
def OffsetTex.indices {α : Type} (t : OffsetTex α) : List Int := t.writes.map Prod.fst

/-! ## Light state and keyboard -/

/-- The type `glm::vec3`. -/
structure vec3 (α : Type) where
  x : α
  y : α
  z : α
deriving DecidableEq, Repr

/-- Operator `+` of `glm::vec3`. -/
def vec3.add {α : Type} [Add α] (a b : vec3 α) : vec3 α :=
  { x := a.x + b.x, y := a.y + b.y, z := a.z + b.z }

/-- Operator `*` of a `glm::vec3` with a scalar. -/
def vec3.scale {α : Type} [Mul α] (a : vec3 α) (s : α) : vec3 α :=
  { x := a.x * s, y := a.y * s, z := a.z * s }

/-- The type `glm::mat4`, as a mathematical matrix (row index first). -/
abbrev mat4 (α : Type) := Matrix (Fin 4) (Fin 4) α

/-- The two functions of the external library glm that the light uses. -/
structure GlmLib (α : Type) where
  lookAt : vec3 α → vec3 α → vec3 α → mat4 α
  perspective : α → α → α → α → mat4 α

/-- Macro `TextureSize` (`800.0f`). -/
def TextureSize {α : Type} [Field α] : α := 800

/-- Macro `speed` (`0.3f`), read as the exact decimal. -/
def speed {α : Type} [Field α] : α := 3 / 10

/-- Struct `LightParams`. -/
structure LightParams (α : Type) where
  forward : vec3 α
  position : vec3 α
  Intensity : vec3 α
  Bias : mat4 α
  Projection : mat4 α
  View : mat4 α
  S : mat4 α

/-- The matrix assigned to `Bias` in `initMatrices`. glm fills a `mat4` column by column, so
the last four scalars of the initialiser, `0.5, 0.5, 0.5, 1.0`, are the fourth column. -/
def biasMatrix {α : Type} [Field α] : mat4 α :=
  !![1 / 2, 0, 0, 1 / 2;
     0, 1 / 2, 0, 1 / 2;
     0, 0, 1 / 2, 1 / 2;
     0, 0, 0, 1]

/-- Method `LightParams::initMatrices()`; it assigns every field. -/
def LightParams.initMatrices {α : Type} [Field α] (glm : GlmLib α) : LightParams α :=
  let position : vec3 α := ⟨1, 10, 0⟩
  let Projection := glm.perspective 45 (TextureSize / TextureSize) (1 / 10) 100
  let View := glm.lookAt position ⟨0, 0, 0⟩ ⟨0, 0, 1⟩
  { forward := ⟨0, 0, 0⟩
    position := position
    Intensity := ⟨1, 1, 1⟩
    Bias := biasMatrix
    Projection := Projection
    View := View
    S := biasMatrix * (Projection * View) }

/-- Method `LightParams::recaliberate()`. -/
def LightParams.recaliberate {α : Type} [Field α] (glm : GlmLib α) (l : LightParams α) :
    LightParams α :=
  let View := glm.lookAt l.position l.forward ⟨0, 1, 0⟩
  { l with View := View, S := l.Bias * (l.Projection * View) }

/-- Struct `shaderParams`: the handles read from the shader program by `initUniforms`. -/
structure shaderParams where
  vec3_LightPos : Nat
  vec3_LightIntensity : Nat
  mat4_MVP : Nat
  mat4_ModelViewMatrix : Nat
  mat3_NormalMatrix : Nat
  mat4_ShadowMatrix : Nat
  sub_shadow : Nat
  sampler_offsetTex : Nat
  vec3_offsetSize : Nat
  sub_func_basicShadow : Nat
  sub_func_PCFshadow : Nat
  sub_func_randomSamplingShadow : Nat
deriving DecidableEq, Repr

/-- The globals of main.cpp that `key_callback` reads or writes. -/
structure ProgState (α : Type) where
  shadowType : Nat
  uniforms : shaderParams
  light : LightParams α

/-- The part of `setup()` that sets the globals of `ProgState`: `light.initMatrices();`,
`uniforms.initUniforms(renderProgram);` (the handles `u` come from the GL driver) and
`shadowType = uniforms.sub_func_basicShadow;`. -/
def setup {α : Type} [Field α] (glm : GlmLib α) (u : shaderParams) : ProgState α :=
  { shadowType := u.sub_func_basicShadow
    uniforms := u
    light := LightParams.initMatrices glm }

/-- Value of `GLFW_RELEASE` in glfw3.h. -/
def GLFW_RELEASE : Int := 0
/-- Value of `GLFW_PRESS` in glfw3.h. -/
def GLFW_PRESS : Int := 1
/-- Value of `GLFW_REPEAT` in glfw3.h. -/
def GLFW_REPEAT : Int := 2
/-- Value of `GLFW_KEY_SPACE` in glfw3.h. -/
def GLFW_KEY_SPACE : Int := 32
/-- Value of `GLFW_KEY_1` in glfw3.h. -/
def GLFW_KEY_1 : Int := 49
/-- Value of `GLFW_KEY_2` in glfw3.h. -/
def GLFW_KEY_2 : Int := 50
/-- Value of `GLFW_KEY_3` in glfw3.h. -/
def GLFW_KEY_3 : Int := 51
/-- Value of `GLFW_KEY_A` in glfw3.h. -/
def GLFW_KEY_A : Int := 65
/-- Value of `GLFW_KEY_D` in glfw3.h. -/
def GLFW_KEY_D : Int := 68
/-- Value of `GLFW_KEY_R` in glfw3.h. -/
def GLFW_KEY_R : Int := 82
/-- Value of `GLFW_KEY_S` in glfw3.h. -/
def GLFW_KEY_S : Int := 83
/-- Value of `GLFW_KEY_W` in glfw3.h. -/
def GLFW_KEY_W : Int := 87
/-- Value of `GLFW_KEY_LEFT_SHIFT` in glfw3.h. -/
def GLFW_KEY_LEFT_SHIFT : Int := 340

/-- Function `key_callback(window, key, scancode, action, mods)`; the window is not read.
The `if` statements of the source are run one after the other. The arithmetic is exact;
`key_callback_float` is the position with every `float` operation rounded. -/
def key_callback {α : Type} [LinearOrderedField α] (glm : GlmLib α)
    (key scancode action mods : Int) (s : ProgState α) : ProgState α :=
  if action = GLFW_PRESS ∨ action = GLFW_REPEAT then
    let p := s.light.position
    let p := if key = GLFW_KEY_W then p.add ((⟨0, 0, -1⟩ : vec3 α).scale speed) else p
    let p := if key = GLFW_KEY_S then p.add ((⟨0, 0, 1⟩ : vec3 α).scale speed) else p
    let p := if key = GLFW_KEY_D then p.add ((⟨1, 0, 0⟩ : vec3 α).scale speed) else p
    let p := if key = GLFW_KEY_A then p.add ((⟨-1, 0, 0⟩ : vec3 α).scale speed) else p
    let p := if key = GLFW_KEY_SPACE then p.add ((⟨0, 1, 0⟩ : vec3 α).scale speed) else p
    let p := if key = GLFW_KEY_LEFT_SHIFT ∧ p.y > 10 then
      p.add ((⟨0, -1, 0⟩ : vec3 α).scale speed) else p
    let p := if key = GLFW_KEY_R then (⟨1 / 10, 10, 0⟩ : vec3 α) else p
    let t := s.shadowType
    let t := if key = GLFW_KEY_1 then s.uniforms.sub_func_basicShadow else t
    let t := if key = GLFW_KEY_2 then s.uniforms.sub_func_PCFshadow else t
    let t := if key = GLFW_KEY_3 then s.uniforms.sub_func_randomSamplingShadow else t
    { s with
      shadowType := t
      light := LightParams.recaliberate glm { s.light with position := p } }
  else s

/-- A key event delivered by GLFW: the arguments `key scancode action mods` of the callback. -/
structure KeyEvent where
  key : Int
  scancode : Int
  action : Int
  mods : Int
deriving DecidableEq, Repr

/-- The state after the key events `evs` have been delivered, in order, from state `s`. -/
def runKeys {α : Type} [LinearOrderedField α] (glm : GlmLib α) (evs : List KeyEvent)
    (s : ProgState α) : ProgState α :=
  evs.foldl (fun s e => key_callback glm e.key e.scancode e.action e.mods s) s

/-! ## Derived descriptions used by the theorems -/

/-- The four indices `cell + 0 .. cell + 3` written by the iteration `i j k`. -/
def cellIndices (size i j k : Int) : List Int :=
  [cellIndex size i j k + 0, cellIndex size i j k + 1, cellIndex size i j k + 2,
    cellIndex size i j k + 3]

/-- The indices written by the three loops, listed in loop order: `i` outermost, then `j`,
then `k = 2 * t` for `t = 0, 1, ..` while `2 * t < samples`. -/
def indexTrace (size samples : Int) : List Int :=
  (List.range size.toNat).flatMap (fun i =>
    (List.range size.toNat).flatMap (fun j =>
      (List.range ((samples + 1) / 2).toNat).flatMap (fun t =>
        cellIndices size i j (2 * (t : Int)))))

/-- A stream of `rand()` results used as a concrete input: `0, RAND_MAX, 0, RAND_MAX, ..`,
so that `jitter()` returns `-0.5, 0.5, -0.5, 0.5, ..`. -/
def altRand (RAND_MAX : Int) (n : Nat) : Int := if n % 2 = 0 then 0 else RAND_MAX

/-- The three shadow modes of the specification. -/
inductive ShadowMode where
  | HardShadow
  | PCF
  | RandomSampling
deriving DecidableEq, Repr

/-- The key that selects a mode: `1`, `2`, `3`. -/
def ShadowMode.key : ShadowMode → Int
  | .HardShadow => GLFW_KEY_1
  | .PCF => GLFW_KEY_2
  | .RandomSampling => GLFW_KEY_3

/-- The subroutine handle of a mode among the handles `u` read by `initUniforms`. -/
def ShadowMode.handle (u : shaderParams) : ShadowMode → Nat
  | .HardShadow => u.sub_func_basicShadow
  | .PCF => u.sub_func_PCFshadow
  | .RandomSampling => u.sub_func_randomSamplingShadow

/-- The shadow-matrix invariant of a light state: `S = Bias * (Projection * View)`. -/
def LightParams.shadowInv {α : Type} [Field α] (l : LightParams α) : Prop :=
  l.S = l.Bias * (l.Projection * l.View)

/-! ## Keyboard actions, vector operations and the two render passes -/

/-- The two actions on which `key_callback` acts. -/
inductive KeyAction where
  | PRESS
  | REPEAT
deriving DecidableEq, Repr

/-- The GLFW code of an action. -/
def KeyAction.code : KeyAction → Int
  | .PRESS => GLFW_PRESS
  | .REPEAT => GLFW_REPEAT

/-- Operator `-` of `glm::vec3`. -/
def vec3.sub {α : Type} [Sub α] (a b : vec3 α) : vec3 α :=
  { x := a.x - b.x, y := a.y - b.y, z := a.z - b.z }

/-- Function `glm::cross` on `glm::vec3`. -/
def vec3.cross {α : Type} [Mul α] [Sub α] (a b : vec3 α) : vec3 α :=
  { x := a.y * b.z - b.y * a.z, y := a.z * b.x - b.z * a.x, z := a.x * b.y - b.x * a.y }

/-- The origins of the three drawn objects. -/
structure SceneOrigins (α : Type) where
  plane : vec3 α
  sphere1 : vec3 α
  sphere2 : vec3 α

/-- The origins assigned during `setup()`: `plane.origin = glm::vec3(0.0f, -0.5f, 0.0f)` in
`Plane::initBuffer`, `sphere1.origin = glm::vec3(0.0f)` and
`sphere2.origin = glm::vec3(-1.0f, 0.0f, -2.0f)` in `createGeometry`. -/
def setupOrigins {α : Type} [Field α] : SceneOrigins α :=
  { plane := ⟨0, -(1 / 2), 0⟩
    sphere1 := ⟨0, 0, 0⟩
    sphere2 := ⟨-1, 0, -2⟩ }

/-- One matrix uploaded for each drawn object by a render pass. -/
structure Uploads (α : Type) where
  plane : mat4 α
  sphere1 : mat4 α
  sphere2 : mat4 α

/-- The matrices `MVP` that `firstDrawPass()` uploads to `uniMVP`; `translate v` stands for
`glm::translate(glm::mat4(1), v)`. -/
def firstDrawPass {α : Type} [Field α] (translate : vec3 α → mat4 α) (o : SceneOrigins α)
    (light : LightParams α) : Uploads α :=
  let PV := light.Projection * light.View
  { plane := PV * translate o.plane
    sphere1 := PV * translate o.sphere1
    sphere2 := PV * translate o.sphere2 }

/-- The matrices `shadowMat` that `secondDrawPass()` uploads to `uniforms.mat4_ShadowMatrix`;
`translate v` stands for `glm::translate(glm::mat4(1), v)`. -/
def secondDrawPass {α : Type} [Field α] (translate : vec3 α → mat4 α) (o : SceneOrigins α)
    (light : LightParams α) : Uploads α :=
  { sphere1 := light.S * translate o.sphere1
    sphere2 := light.S * translate o.sphere2
    plane := light.S * translate o.plane }

/-! ## The generator with `x2` and `y2` replaced -/

/-- The loop body of `buildOffsetTex` with the values of `x2` and `y2` replaced: in the
iteration `i j k` the body gets `x2f i j k` and `y2f i j k` in place of
`(k + 1) & samplesU` and `(samples - 1 - k - 1) / samplesU`; the rest is `innerBody`. -/
def innerBodyWith {α : Type} [Field α] (x2f y2f : Int → Int → Int → Int)
    (sqrtf cosf : α → α) (RAND_MAX : Int) (rand : Nat → Int)
    (size samplesU samplesV i j k : Int) (st : GenState α) : GenState α :=
  let samples := samplesU * samplesV
  let v : vec4 α := scaleToUnit samplesU samplesV
    (centerAndJitter (x1 samplesU k) (y1 samples samplesU k) (x2f i j k) (y2f i j k)
      (jitter RAND_MAX (rand st.calls)) (jitter RAND_MAX (rand (st.calls + 1)))
      (jitter RAND_MAX (rand (st.calls + 2))) (jitter RAND_MAX (rand (st.calls + 3))))
  let cell := cellIndex size i j k
  let d := warpToDisk sqrtf cosf v
  { writes := st.writes ++ [(cell + 0, d.x), (cell + 1, d.y), (cell + 2, d.z), (cell + 3, d.w)]
    calls := st.calls + 4 }

/-- Function `buildOffsetTex` with the values of `x2` and `y2` replaced in every iteration
(see `innerBodyWith`). -/
def buildOffsetTexWith {α : Type} [Field α] (x2f y2f : Int → Int → Int → Int)
    (sqrtf cosf : α → α) (RAND_MAX : Int) (rand : Nat → Int)
    (size samplesU samplesV : Int) : OffsetTex α :=
  let samples := samplesU * samplesV
  let bufSize := size * size * samples * 2
  let st : GenState α :=
    forLoop size 1 (by decide)
      (fun i st =>
        forLoop size 1 (by decide)
          (fun j st =>
            forLoop samples 2 (by decide)
              (fun k st =>
                innerBodyWith x2f y2f sqrtf cosf RAND_MAX rand size samplesU samplesV i j k st)
              0 st)
          0 st)
      0 ⟨[], 0⟩
  { bufSize := bufSize
    writes := st.writes
    width := size
    height := size
    depth := Int.tdiv samples 2 }

/-! ## Shader loading (BasicFunctions.h) -/

/-- The contents of a `std::string`: its bytes. -/
abbrev Bytes := List Nat

/-- Function `readShader(fileName)`. The argument `fs` stands for the file system:
`fs fileName` is `none` when `file.good()` is false after opening the file, and the bytes of
the file otherwise. The stream is opened with `std::ios::in` alone, that is in text mode:
`textMode bytes` stands for the characters that the stream delivers for a file made of
`bytes` (the bytes themselves on a platform whose text mode translates nothing; fewer
characters where a line end of two bytes is read as one character), while `tellg()` at the
end of the file is the number of bytes. `resize` fills the string with zero bytes and `read`
overwrites as many of them as the stream delivers. The result is the text written to
`std::cout` and the returned string. -/
def readShader (textMode : Bytes → Bytes) (fs : String → Option Bytes) (fileName : String) :
    List String × Bytes :=
  match fs fileName with
  | none => (["Can't read file: " ++ fileName ++ "\n"], [])
  | some bytes =>
    -- `file.seekg(0, std::ios::end); shaderCode.resize((unsigned int)file.tellg());`
    let shaderCode : Bytes := List.replicate (bytes.length % 2 ^ 32) 0
    -- `file.seekg(0, std::ios::beg); file.read(&shaderCode[0], shaderCode.size());`
    let got := (textMode bytes).take shaderCode.length
    ([], got ++ shaderCode.drop got.length)

/-- A text mode that reads the line end `13, 10` (carriage return, line feed) as the single
character `10` and every other byte as it is. -/
def crlfText : Bytes → Bytes
  | 13 :: 10 :: rest => 10 :: crlfText rest
  | b :: rest => b :: crlfText rest
  | [] => []

/-- What the program does to the outside during `init()`: text written to `std::cout` and
calls of the GL library, with their arguments. -/
inductive GLEvent where
  | cout (text : String)
  | glewInit
  | glEnable (cap : Nat)
  | glCreateShader (shaderType : Nat)
  | glShaderSource (shader : Nat) (source : Bytes) (length : Int)
  | glCompileShader (shader : Nat)
  | glGetShaderiv (shader pname : Nat)
  | glGetShaderInfoLog (shader : Nat)
  | glDeleteShader (shader : Nat)
  | glCreateProgram
  | glAttachShader (program shader : Nat)
  | glLinkProgram (program : Nat)
  | glGetUniformLocation (program : Nat) (name : String)
  | glFrontFace (mode : Nat)
  | glPolygonMode (face mode : Nat)
deriving DecidableEq, Repr

/-- The answers of the GL driver: the handle returned by `glCreateShader` and by
`glCreateProgram` (they may depend on the number of events so far), whether a source
compiles, the info log of a failed compilation, and the location of a uniform. -/
structure GLDriver where
  createShader : Nat → Nat → Nat
  createProgram : Nat → Nat
  compiles : Bytes → Nat → Bool
  infoLog : Bytes → Nat → String
  uniformLocation : Nat → String → Nat

/-- Value of `GL_VERTEX_SHADER` in glew.h. -/
def GL_VERTEX_SHADER : Nat := 35633
/-- Value of `GL_FRAGMENT_SHADER` in glew.h. -/
def GL_FRAGMENT_SHADER : Nat := 35632
/-- Value of `GL_COMPILE_STATUS` in glew.h. -/
def GL_COMPILE_STATUS : Nat := 35713
/-- Value of `GL_DEPTH_TEST` in glew.h. -/
def GL_DEPTH_TEST : Nat := 2929
/-- Value of `GL_CULL_FACE` in glew.h. -/
def GL_CULL_FACE : Nat := 2884
/-- Value of `GL_CW` in glew.h. -/
def GL_CW : Nat := 2304
/-- Value of `GL_FRONT_AND_BACK` in glew.h. -/
def GL_FRONT_AND_BACK : Nat := 1032
/-- Value of `GL_FILL` in glew.h. -/
def GL_FILL : Nat := 6914

/-- Conversion of a size to `int`, as in `const int shader_code_size = sourceCode.size();`:
the value modulo `2^32` in the range of a 32-bit `int`. -/
def toInt32 (n : Nat) : Int := ((n : Int) + 2 ^ 31) % 2 ^ 32 - 2 ^ 31

/-- Function `createShader(sourceCode, shaderType)`, run after the events `log`: the events
afterwards and the returned handle. The event `glShaderSource shader sourceCode size` stands
for `glShaderSource(shader, 1, &shader_code_ptr, &shader_code_size)`. -/
def createShader (gl : GLDriver) (sourceCode : Bytes) (shaderType : Nat)
    (log : List GLEvent) : List GLEvent × Nat :=
  let shader := gl.createShader shaderType log.length
  let shader_code_size : Int := toInt32 sourceCode.length
  let log := log ++ [.glCreateShader shaderType,
    .glShaderSource shader sourceCode shader_code_size,
    .glCompileShader shader, .glGetShaderiv shader GL_COMPILE_STATUS]
  if gl.compiles sourceCode shaderType then (log, shader)
  else
    (log ++ [.glGetShaderInfoLog shader,
      .cout ("The shader failed to compile with the error:\n"
        ++ gl.infoLog sourceCode shaderType ++ "\n"),
      .glDeleteShader shader], shader)

/-- The globals assigned by `init()` and the events of the run. -/
structure InitResult where
  log : List GLEvent
  program : Nat
  vertex_shader : Nat
  fragment_shader : Nat
  uniMVP : Nat
  renderProgram : Nat

/-- Function `init()`. -/
def init (gl : GLDriver) (textMode : Bytes → Bytes) (fs : String → Option Bytes) :
    InitResult :=
  let log : List GLEvent := [.glewInit, .glEnable GL_DEPTH_TEST]
  let vertShader := readShader textMode fs "VertexShader.glsl"
  let log := log ++ vertShader.1.map .cout
  let fragShader := readShader textMode fs "FragmentShader.glsl"
  let log := log ++ fragShader.1.map .cout
  let vs := createShader gl vertShader.2 GL_VERTEX_SHADER log
  let vertex_shader := vs.2
  let fsh := createShader gl fragShader.2 GL_FRAGMENT_SHADER vs.1
  let fragment_shader := fsh.2
  let program := gl.createProgram fsh.1.length
  let log := fsh.1 ++ [.glCreateProgram, .glAttachShader program vertex_shader,
    .glAttachShader program fragment_shader, .glLinkProgram program,
    .glGetUniformLocation program "MVP"]
  let uniMVP := gl.uniformLocation program "MVP"
  let vertShader := readShader textMode fs "LightVertexShader.glsl"
  let log := log ++ vertShader.1.map .cout
  let fragShader := readShader textMode fs "LightFragShader.glsl"
  let log := log ++ fragShader.1.map .cout
  let vs := createShader gl vertShader.2 GL_VERTEX_SHADER log
  let vertex_shader := vs.2
  let fsh := createShader gl fragShader.2 GL_FRAGMENT_SHADER vs.1
  let fragment_shader := fsh.2
  let renderProgram := gl.createProgram fsh.1.length
  let log := fsh.1 ++ [.glCreateProgram, .glAttachShader renderProgram vertex_shader,
    .glAttachShader renderProgram fragment_shader, .glLinkProgram renderProgram,
    .glFrontFace GL_CW, .glEnable GL_CULL_FACE, .glPolygonMode GL_FRONT_AND_BACK GL_FILL]
  { log := log
    program := program
    vertex_shader := vertex_shader
    fragment_shader := fragment_shader
    uniMVP := uniMVP
    renderProgram := renderProgram }

/-- The two events by which `createShader` hands a source to the compiler: the call of
`glShaderSource` with the source and its size, directly followed by `glCompileShader`. -/
def compileEvents (shader : Nat) (source : Bytes) : List GLEvent :=
  [.glShaderSource shader source (toInt32 source.length), .glCompileShader shader]

/-! ## Shadow filtering policy of the fragment shader -/

/-- Modelled from the spec: the fragment shader with the three subroutines `basicShadow`,
`PCFshadow` and `randomSamplingShadow` is not among the sources; only their names are, in
`initUniforms`. A shadow map gives the depth stored at a position of the depth texture. -/
abbrev ShadowMap (α : Type) := α × α → α

/-- Modelled from the spec: "a fragment's light-space projected position": the position
`(s, t)` in the shadow map and the depth of the fragment seen from the light. -/
structure Fragment (α : Type) where
  s : α
  t : α
  depth : α

/-- Modelled from the spec: one "depth comparison" of the fragment against the shadow map
at a position displaced by `offset`, with "1 = fully lit, 0 = fully in shadow". The
comparison is the one configured in `setFrameBUffer`: `GL_COMPARE_REF_TO_TEXTURE` with
`GL_LESS`. -/
def depthCompare {α : Type} [LinearOrderedField α] (map : ShadowMap α) (f : Fragment α)
    (offset : α × α) : α :=
  if f.depth < map (f.s + offset.1, f.t + offset.2) then 1 else 0

/-- Modelled from the spec: the average of a list of comparison results. -/
def average {α : Type} [LinearOrderedField α] (l : List α) : α := l.sum / (l.length : α)

/-- Modelled from the spec: HardShadow, "single depth comparison at the fragment's projected
texel; binary result (no blending)". -/
def basicShadow {α : Type} [LinearOrderedField α] (map : ShadowMap α) (f : Fragment α) : α :=
  depthCompare map f (0, 0)

/-- Modelled from the spec: the comparisons of PCF, "a fixed 4x4 neighborhood around the
projected texel (16 total samples)"; `nbhd i j` is the displacement of the sample in row `i`
and column `j`, which the spec does not fix. -/
def PCFcomparisons {α : Type} [LinearOrderedField α] (nbhd : Fin 4 → Fin 4 → α × α)
    (map : ShadowMap α) (f : Fragment α) : List α :=
  (List.finRange 4).flatMap (fun i =>
    (List.finRange 4).map (fun j => depthCompare map f (nbhd i j)))

/-- Modelled from the spec: PCF, "average all resulting binary comparisons into a continuous
[0,1] value". -/
def PCFshadow {α : Type} [LinearOrderedField α] (nbhd : Fin 4 → Fin 4 → α × α)
    (map : ShadowMap α) (f : Fragment α) : α :=
  average (PCFcomparisons nbhd map f)

/-- Modelled from the spec: RandomSampling, "first test a small number of outer-ring
samples; if they all agree (all lit or all in shadow), short-circuit and return that uniform
value; otherwise the fragment is in the penumbra region and additional inner samples are
drawn and averaged". The displacements `outer` and `inner` are read from the offset table;
the average is taken over all the samples drawn. -/
def randomSamplingShadow {α : Type} [LinearOrderedField α] (outer inner : List (α × α))
    (map : ShadowMap α) (f : Fragment α) : α :=
  if (outer.map (depthCompare map f)).all (fun c => decide (c = 1)) then 1
  else if (outer.map (depthCompare map f)).all (fun c => decide (c = 0)) then 0
  else average (outer.map (depthCompare map f) ++ inner.map (depthCompare map f))

/-- Modelled from the spec: the "scalar shadow factor ... selected by the current
ShadowMode". -/
def shadowFactor {α : Type} [LinearOrderedField α] (mode : ShadowMode)
    (nbhd : Fin 4 → Fin 4 → α × α) (outer inner : List (α × α)) (map : ShadowMap α)
    (f : Fragment α) : α :=
  match mode with
  | .HardShadow => basicShadow map f
  | .PCF => PCFshadow nbhd map f
  | .RandomSampling => randomSamplingShadow outer inner map f

/-! ## The library glm: `lookAt` and `perspective` -/

/-- Function `glm::dot` on `glm::vec3`. -/
def vec3.dot {α : Type} [Add α] [Mul α] (a b : vec3 α) : α :=
  a.x * b.x + a.y * b.y + a.z * b.z

/-- Function `glm::normalize` of the library glm: `v * inversesqrt(dot(v, v))`, where
`inversesqrt(x)` is `1 / sqrt(x)`. -/
def vec3.normalize {α : Type} [Field α] (sqrt : α → α) (v : vec3 α) : vec3 α :=
  v.scale (1 / sqrt (v.dot v))

/-- Function `glm::lookAt(eye, center, up)` of the library glm (the right-handed version,
which is the default): with `f = normalize(center - eye)`, `s = normalize(cross(f, up))` and
`u = cross(s, f)`, the rows of the result are `(s, -dot(s, eye))`, `(u, -dot(u, eye))`,
`(-f, dot(f, eye))` and `(0, 0, 0, 1)`. -/
def glmLookAt {α : Type} [Field α] (sqrt : α → α) (eye center up : vec3 α) : mat4 α :=
  let f := (center.sub eye).normalize sqrt
  let s := (f.cross up).normalize sqrt
  let u := s.cross f
  !![s.x, s.y, s.z, -(s.dot eye);
     u.x, u.y, u.z, -(u.dot eye);
     -f.x, -f.y, -f.z, f.dot eye;
     0, 0, 0, 1]

/-- Function `glm::perspective(fovy, aspect, zNear, zFar)` of the library glm (right-handed,
depth range `-1 .. 1`); `tanHalf fovy` stands for the tangent of half the angle `fovy`, in
the unit in which the library reads the angle. -/
def glmPerspective {α : Type} [Field α] (tanHalf : α → α) (fovy aspect zNear zFar : α) :
    mat4 α :=
  !![1 / (aspect * tanHalf fovy), 0, 0, 0;
     0, 1 / tanHalf fovy, 0, 0;
     0, 0, -(zFar + zNear) / (zFar - zNear), -(2 * zFar * zNear) / (zFar - zNear);
     0, 0, -1, 0]

/-- The two functions of glm that the light uses, for a square root `sqrt` and a function
`tanHalf`. -/
def glmLib {α : Type} [Field α] (sqrt tanHalf : α → α) : GlmLib α :=
  { lookAt := glmLookAt sqrt
    perspective := glmPerspective tanHalf }

/-! ## Single precision arithmetic and the position of the light -/

/-- The integer nearest to `t`, a tie going to the even one. -/
def roundHalfEven (t : ℚ) : ℤ :=
  if t - ⌊t⌋ < 1 / 2 then ⌊t⌋
  else if 1 / 2 < t - ⌊t⌋ then ⌊t⌋ + 1
  else if ⌊t⌋ % 2 = 0 then ⌊t⌋ else ⌊t⌋ + 1

/-- The spacing of the numbers of type `float` (IEEE 754 binary32) at `x`: `2 ^ (e - 23)`
where `2 ^ e ≤ |x| < 2 ^ (e + 1)`, with `e` not below `-126` (the subnormal numbers). -/
def ulpF32 (x : ℚ) : ℚ := 2 ^ (max (Int.log 2 |x|) (-126) - 23)

/-- Rounding to `float`: the multiple of the spacing nearest to `x`, a tie going to the even
multiple (round to nearest, ties to even, the rounding of every `float` operation and
literal). Overflow to infinity is left out: the value is the one of the machine for
`|x| < 2 ^ 128`. -/
def roundF32 (x : ℚ) : ℚ := roundHalfEven (x / ulpF32 x) * ulpF32 x

/-- A function applied to the three components of a `glm::vec3`. -/
def vec3.map {α β : Type} (f : α → β) (v : vec3 α) : vec3 β :=
  { x := f v.x, y := f v.y, z := f v.z }

/-- Function `key_callback` in `float` arithmetic, for `light.position`, the only `float`
data that its own statements compute: the statements of the source that assign
`light.position`, run one after the other, with the rounding `fl` applied to the literals
`0.3f` (`speed`) and `0.1f` and to every component of the product `glm::vec3 * speed` and of
the sum `light.position += ..`. With `fl` the identity it is the position computed by the
exact `key_callback`. -/
def key_callback_float {α : Type} [LinearOrderedField α] (fl : α → α)
    (key scancode action mods : Int) (p : vec3 α) : vec3 α :=
  if action = GLFW_PRESS ∨ action = GLFW_REPEAT then
    let p := if key = GLFW_KEY_W then
      (p.add (((⟨0, 0, -1⟩ : vec3 α).scale (fl speed)).map fl)).map fl else p
    let p := if key = GLFW_KEY_S then
      (p.add (((⟨0, 0, 1⟩ : vec3 α).scale (fl speed)).map fl)).map fl else p
    let p := if key = GLFW_KEY_D then
      (p.add (((⟨1, 0, 0⟩ : vec3 α).scale (fl speed)).map fl)).map fl else p
    let p := if key = GLFW_KEY_A then
      (p.add (((⟨-1, 0, 0⟩ : vec3 α).scale (fl speed)).map fl)).map fl else p
    let p := if key = GLFW_KEY_SPACE then
      (p.add (((⟨0, 1, 0⟩ : vec3 α).scale (fl speed)).map fl)).map fl else p
    let p := if key = GLFW_KEY_LEFT_SHIFT ∧ p.y > 10 then
      (p.add (((⟨0, -1, 0⟩ : vec3 α).scale (fl speed)).map fl)).map fl else p
    let p := if key = GLFW_KEY_R then (⟨fl (1 / 10), 10, 0⟩ : vec3 α) else p
    p
  else p

/-- The position of the light after the key events `evs` have been delivered, in order,
from the position `p`, in `float` arithmetic. -/
def runKeys_float {α : Type} [LinearOrderedField α] (fl : α → α) (evs : List KeyEvent)
    (p : vec3 α) : vec3 α :=
  evs.foldl (fun p e => key_callback_float fl e.key e.scancode e.action e.mods p) p

/-- Rounding of a natural number to 24 significant bits, a tie going to the even
significand; for `m < 2 ^ 41`. It is `roundF32` on the multiples of `2 ^ (-25)`, counted in
that unit (`roundF32_units`), and serves to evaluate long runs of key events. -/
def roundBits (m : ℕ) : ℕ :=
  let g := 2 ^ (Nat.findGreatest (fun e => 2 ^ e ≤ m) 40 - 23)
  if 2 * (m % g) < g then m / g * g
  else if g < 2 * (m % g) then (m / g + 1) * g
  else if m / g % 2 = 0 then m / g * g else (m / g + 1) * g

/-- The height `light.position.y`, counted in units of `2 ^ (-25)`, after `n` presses of the
SPACE key from the height `h`; `none` when a sum leaves the range of `roundBits`. The number
`10066330` is `0.3f` in that unit. It agrees with `runKeys_float roundF32` (`climb_spec`). -/
def climb : ℕ → ℕ → Option ℕ
  | 0, h => some h
  | n + 1, h =>
    if 2 ^ 23 ≤ h + 10066330 ∧ h + 10066330 < 2 ^ 41 then
      climb n (roundBits (h + 10066330))
    else none

/-- The height, in units of `2 ^ (-25)`, after `n` presses of the LEFT_SHIFT key from the
height `h`; `none` when a height leaves the range of `roundBits`. It agrees with
`runKeys_float roundF32` (`descend_spec`). -/
def descend : ℕ → ℕ → Option ℕ
  | 0, h => some h
  | n + 1, h =>
    if 10 * 2 ^ 25 < h then
      if h < 2 ^ 41 then descend n (roundBits (h - 10066330)) else none
    else descend n h

/-- The `float` nearest to `10 - 0.3f`: the height one rounded step below the threshold `10`
of the LEFT_SHIFT key. -/
def heightFloor : ℚ := roundF32 (10 - roundF32 speed)

/-! ## Loop lemmas -/

/-- A loop that runs exactly `n` times is the left fold of its body over `0 .. n-1`. -/
theorem forLoop_eq_foldl {σ : Type} (stop step : Int) (hstep : 0 < step) (body : Int → σ → σ) :
    ∀ (n : Nat) (k : Int) (st : σ), stop ≤ k + step * n →
      (∀ t : Nat, t < n → k + step * t < stop) →
      forLoop stop step hstep body k st
        = (List.range n).foldl (fun st (t : Nat) => body (k + step * t) st) st := by
  intro n
  induction n with
  | zero =>
    intro k st h1 _
    have hk : ¬ k < stop := by simpa using h1
    rw [forLoop, if_neg hk]
    simp
  | succ n ih =>
    intro k st h1 h2
    have hk : k < stop := by simpa using h2 0 (Nat.succ_pos n)
    rw [forLoop, if_pos hk, ih (k + step) (body k st)]
    · rw [List.range_succ_eq_map, List.foldl_cons, List.foldl_map]
      simp only [Nat.cast_zero, mul_zero, add_zero, Nat.succ_eq_add_one, Nat.cast_add,
        Nat.cast_one]
      congr 1
      funext st t
      congr 1
      ring
    · have : k + step + step * (n : Int) = k + step * ((n + 1 : Nat) : Int) := by
        push_cast; ring
      rw [this]; exact h1
    · intro t ht
      have := h2 (t + 1) (Nat.succ_lt_succ ht)
      have e : k + step + step * (t : Int) = k + step * ((t + 1 : Nat) : Int) := by
        push_cast; ring
      rw [e]; exact this

/-- The loop `for (k = 0; k < stop; k++)` as a fold. -/
theorem forLoop_one {σ : Type} (stop : Int) (body : Int → σ → σ) (st : σ) :
    forLoop stop 1 (by decide) body 0 st
      = (List.range stop.toNat).foldl (fun st (t : Nat) => body (t : Int) st) st := by
  rw [forLoop_eq_foldl stop 1 (by decide) body stop.toNat 0 st (by omega)
    (by intro t ht; omega)]
  congr 1
  funext st t
  congr 1
  ring

/-- The loop `for (k = 0; k < stop; k += 2)` as a fold over `k = 2 * t`. -/
theorem forLoop_two {σ : Type} (stop : Int) (body : Int → σ → σ) (st : σ) :
    forLoop stop 2 (by decide) body 0 st
      = (List.range ((stop + 1) / 2).toNat).foldl (fun st (t : Nat) => body (2 * (t : Int)) st) st := by
  rw [forLoop_eq_foldl stop 2 (by decide) body ((stop + 1) / 2).toNat 0 st (by omega)
    (by intro t ht; omega)]
  congr 1
  funext st t
  congr 1
  ring

/-- When every step appends `h t` to a projection of the state, the fold appends the
concatenation of the `h t`. -/
theorem foldl_trace {σ β ι : Type} (proj : σ → List β) (g : σ → ι → σ) (h : ι → List β)
    (hg : ∀ st t, proj (g st t) = proj st ++ h t) :
    ∀ (l : List ι) (st : σ), proj (l.foldl g st) = proj st ++ l.flatMap h := by
  intro l
  induction l with
  | nil => intro st; simp
  | cons a l ih =>
    intro st
    rw [List.foldl_cons, ih, hg, List.flatMap_cons, List.append_assoc]

/-! ## The write trace of the generator -/

/-- One iteration appends the four indices of its cell. -/
theorem innerBody_indices {α : Type} [Field α] (sqrtf cosf : α → α) (RAND_MAX : Int)
    (rand : Nat → Int) (size samplesU samplesV i j k : Int) (st : GenState α) :
    (innerBody sqrtf cosf RAND_MAX rand size samplesU samplesV i j k st).writes.map Prod.fst
      = st.writes.map Prod.fst ++ cellIndices size i j k := by
  simp [innerBody, cellIndices]

/-- The indices written by the three loops are `indexTrace`, whatever the values. -/
theorem offsetLoops_indices {α : Type} [Field α] (sqrtf cosf : α → α) (RAND_MAX : Int)
    (rand : Nat → Int) (size samplesU samplesV : Int) (st : GenState α) :
    (offsetLoops sqrtf cosf RAND_MAX rand size samplesU samplesV st).writes.map Prod.fst
      = st.writes.map Prod.fst ++ indexTrace size (samplesU * samplesV) := by
  unfold offsetLoops indexTrace
  simp only [forLoop_one, forLoop_two]
  refine foldl_trace (fun s : GenState α => s.writes.map Prod.fst) _ _ ?_ _ st
  intro st i
  refine foldl_trace (fun s : GenState α => s.writes.map Prod.fst) _ _ ?_ _ st
  intro st j
  refine foldl_trace (fun s : GenState α => s.writes.map Prod.fst) _ _ ?_ _ st
  intro st t
  exact innerBody_indices sqrtf cosf RAND_MAX rand size samplesU samplesV i j (2 * (t : Int)) st

/-- The indices written by a run of `buildOffsetTex`. -/
theorem buildOffsetTex_indices {α : Type} [Field α] (sqrtf cosf : α → α) (RAND_MAX : Int)
    (rand : Nat → Int) (size samplesU samplesV : Int) :
    (buildOffsetTex sqrtf cosf RAND_MAX rand size samplesU samplesV).indices
      = indexTrace size (samplesU * samplesV) := by
  simp [buildOffsetTex, OffsetTex.indices, offsetLoops_indices]

/-- Every written index comes from a tile `(i, j)`, a pair number `t` (with `k = 2 * t`)
and a component `c`. -/
theorem mem_indexTrace {size samples idx : Int} (h : idx ∈ indexTrace size samples) :
    ∃ i j t c : Int, 0 ≤ i ∧ i < size ∧ 0 ≤ j ∧ j < size ∧ 0 ≤ t ∧ 2 * t < samples ∧
      0 ≤ c ∧ c ≤ 3 ∧ idx = (t * size * size + j * size + i) * 4 + c := by
  simp only [indexTrace, List.mem_flatMap, List.mem_range, cellIndices, cellIndex] at h
  obtain ⟨i, hi, j, hj, t, ht, hc⟩ := h
  have htd : Int.tdiv (2 * (t : Int)) 2 = t := by
    exact Int.mul_tdiv_cancel_left _ (by decide)
  rw [htd] at hc
  simp only [List.mem_cons, List.mem_singleton, List.not_mem_nil, or_false] at hc
  refine ⟨i, j, t, idx - ((t : Int) * size * size + j * size + i) * 4, by omega, by omega,
    by omega, by omega, by omega, by omega, ?_, ?_, by ring⟩
  · rcases hc with h | h | h | h <;> rw [h] <;> simp
  · rcases hc with h | h | h | h <;> rw [h] <;> simp

/-- The index arithmetic of the in-bounds argument. -/
theorem index_lt_bufSize (size samples i j t c : Int) (hi0 : 0 ≤ i) (hi : i < size)
    (hj0 : 0 ≤ j) (hj : j < size) (ht0 : 0 ≤ t) (ht : 2 * t + 2 ≤ samples) (hc : c ≤ 3) :
    (t * size * size + j * size + i) * 4 + c < size * size * samples * 2 := by
  have h1 : j * size + i + 1 ≤ size * size := by nlinarith
  have h2 : 0 ≤ size * size := mul_self_nonneg size
  have h3 : (2 * t + 2) * (size * size) ≤ samples * (size * size) :=
    mul_le_mul_of_nonneg_right ht h2
  nlinarith

/-- Conversely, every index of that form is written. -/
theorem mem_indexTrace_of (size samples i j t c : Int) (hi0 : 0 ≤ i) (hi : i < size)
    (hj0 : 0 ≤ j) (hj : j < size) (ht0 : 0 ≤ t) (ht : 2 * t < samples) (hc0 : 0 ≤ c)
    (hc : c ≤ 3) :
    (t * size * size + j * size + i) * 4 + c ∈ indexTrace size samples := by
  simp only [indexTrace, List.mem_flatMap, List.mem_range, cellIndices, cellIndex]
  refine ⟨i.toNat, by omega, j.toNat, by omega, t.toNat, by omega, ?_⟩
  have htd : Int.tdiv (2 * ((t.toNat : Nat) : Int)) 2 = t := by
    rw [Int.mul_tdiv_cancel_left _ (by decide)]; omega
  rw [htd, Int.toNat_of_nonneg hi0, Int.toNat_of_nonneg hj0]
  simp only [List.mem_cons, List.mem_singleton, List.not_mem_nil, or_false]
  have : c = 0 ∨ c = 1 ∨ c = 2 ∨ c = 3 := by omega
  rcases this with h | h | h | h <;> simp [h]

/-! ## Evaluation of the generator on a small request -/

/-- The normalised vector of the only iteration of `buildOffsetTex(1, 1, 2)` when `rand()`
returns `0, RAND_MAX, 0, RAND_MAX`. -/
theorem normalised_altRand :
    normalised (α := ℝ) 32767 (altRand 32767) 1 2 0 0 = ⟨0, 1, 0, 1⟩ := by
  simp [normalised, scaleToUnit, centerAndJitter, jitter, altRand, x1, y1, x2, y2]

/-- The writes of `buildOffsetTex(1, 1, 2)` when `rand()` returns `0, RAND_MAX, 0, RAND_MAX`. -/
theorem writes_altRand :
    (buildOffsetTex Real.sqrt Real.cos 32767 (altRand 32767) 1 1 2).writes
      = [(0, 1), (1, 1), (2, 1), (3, 1)] := by
  have hv := normalised_altRand
  simp [buildOffsetTex, offsetLoops, forLoop, innerBody, hv, warpToDisk, cellIndex]

/-! ## Invariant of the light state -/

/-- One call of `key_callback` keeps the shadow-matrix invariant. -/
theorem key_callback_shadowInv {α : Type} [LinearOrderedField α] (glm : GlmLib α)
    (key scancode action mods : Int) (s : ProgState α) (h : s.light.shadowInv) :
    (key_callback glm key scancode action mods s).light.shadowInv := by
  unfold key_callback
  split
  · simp [LightParams.shadowInv, LightParams.recaliberate]
  · exact h

/-- Any sequence of key events keeps the shadow-matrix invariant. -/
theorem runKeys_shadowInv {α : Type} [LinearOrderedField α] (glm : GlmLib α)
    (evs : List KeyEvent) : ∀ s : ProgState α, s.light.shadowInv →
      (runKeys glm evs s).light.shadowInv := by
  induction evs with
  | nil => intro s h; exact h
  | cons e evs ih =>
    intro s h
    exact ih _ (key_callback_shadowInv glm e.key e.scancode e.action e.mods s h)

/-! ## Bounds on the normalised coordinates -/

/-- The result of `jitter()` lies in `[-1/2, 1/2]`. -/
theorem jitter_bounds {α : Type} [LinearOrderedField α] {RAND_MAX r : Int}
    (hRM : 0 < RAND_MAX) (h0 : 0 ≤ r) (h1 : r ≤ RAND_MAX) :
    -(1 / 2 : α) ≤ jitter RAND_MAX r ∧ jitter RAND_MAX r ≤ (1 / 2 : α) := by
  have hR : (0 : α) < (RAND_MAX : α) := by exact_mod_cast hRM
  have hr0 : (0 : α) ≤ (r : α) := by exact_mod_cast h0
  have hr1 : (r : α) ≤ (RAND_MAX : α) := by exact_mod_cast h1
  have hq0 : (0 : α) ≤ (r : α) / (RAND_MAX : α) := div_nonneg hr0 hR.le
  have hq1 : (r : α) / (RAND_MAX : α) ≤ 1 := (div_le_one hR).2 hr1
  unfold jitter
  exact ⟨by linarith, by linarith⟩

/-- The grid column `x1` lies in `[0, samplesU - 1]`. -/
theorem x1_bounds {samplesU k : Int} (hU : 1 ≤ samplesU) (hk : 0 ≤ k) :
    0 ≤ x1 samplesU k ∧ x1 samplesU k ≤ samplesU - 1 := by
  unfold x1
  rw [Int.tmod_eq_emod hk (by omega)]
  have h1 := Int.emod_nonneg k (show samplesU ≠ 0 by omega)
  have h2 := Int.emod_lt_of_pos k (show 0 < samplesU by omega)
  omega

/-- The grid row `y1` lies in `[0, samplesV - 1]`. -/
theorem y1_bounds {samplesU samplesV k : Int} (hU : 1 ≤ samplesU) (hV : 1 ≤ samplesV)
    (hk0 : 0 ≤ k) (hk : k < samplesU * samplesV) :
    0 ≤ y1 (samplesU * samplesV) samplesU k ∧
      y1 (samplesU * samplesV) samplesU k ≤ samplesV - 1 := by
  unfold y1
  rw [Int.tdiv_eq_ediv (by omega) (by omega)]
  have h1 : 0 ≤ (samplesU * samplesV - 1 - k) / samplesU :=
    Int.ediv_nonneg (by omega) (by omega)
  have h2 : (samplesU * samplesV - 1 - k) / samplesU < samplesV :=
    Int.ediv_lt_of_lt_mul (by omega) (by rw [mul_comm]; omega)
  omega

/-- A centred, jittered and scaled grid coordinate lies in `[0, 1]`. -/
theorem unit_bounds {α : Type} [LinearOrderedField α] {a n : Int} {j : α} (ha0 : 0 ≤ a)
    (ha : a ≤ n - 1) (hj0 : -(1 / 2 : α) ≤ j) (hj1 : j ≤ 1 / 2) :
    0 ≤ ((a : α) + 1 / 2 + j) / (n : α) ∧ ((a : α) + 1 / 2 + j) / (n : α) ≤ 1 := by
  have hn : (0 : α) < (n : α) := by exact_mod_cast (show 0 < n by omega)
  have ha0c : (0 : α) ≤ (a : α) := by exact_mod_cast ha0
  have hac : (a : α) ≤ (n : α) - 1 := by exact_mod_cast ha
  exact ⟨div_nonneg (by linarith) hn.le, (div_le_one hn).2 (by linarith)⟩

/-! ## Keyboard: effect of one call on the light -/

/-- Pressing or holding the key of a mode sets `shadowType` to the handle of the mode and
recomputes the light matrices; nothing else changes. -/
theorem mode_key_callback {α : Type} [LinearOrderedField α] (glm : GlmLib α)
    (s : ProgState α) (m : ShadowMode) (p : KeyAction) (scancode mods : Int) :
    key_callback glm m.key scancode p.code mods s
      = { s with
          shadowType := m.handle s.uniforms
          light := LightParams.recaliberate glm s.light } := by
  cases m <;> cases p <;>
    simp [key_callback, ShadowMode.key, ShadowMode.handle, KeyAction.code, GLFW_PRESS,
      GLFW_REPEAT, GLFW_KEY_1, GLFW_KEY_2, GLFW_KEY_3, GLFW_KEY_W, GLFW_KEY_S, GLFW_KEY_D,
      GLFW_KEY_A, GLFW_KEY_SPACE, GLFW_KEY_LEFT_SHIFT, GLFW_KEY_R]

/-- Running `recaliberate` twice gives the same light state as running it once. -/
theorem recaliberate_idem {α : Type} [Field α] (glm : GlmLib α) (l : LightParams α) :
    LightParams.recaliberate glm (LightParams.recaliberate glm l)
      = LightParams.recaliberate glm l := by
  simp [LightParams.recaliberate]

/-- What one call of `key_callback` can do to the light: `x` is kept, moved by `3/10` either
way or reset to `1/10`; `y` is kept, raised by `3/10`, lowered by `3/10` (only from above
`10`) or reset to `10`; `forward` is kept. -/
theorem key_callback_position {α : Type} [LinearOrderedField α] (glm : GlmLib α)
    (key scancode action mods : Int) (s : ProgState α) :
    ((key_callback glm key scancode action mods s).light.position.x = s.light.position.x ∨
      (key_callback glm key scancode action mods s).light.position.x
        = s.light.position.x + 3 / 10 ∨
      (key_callback glm key scancode action mods s).light.position.x
        = s.light.position.x - 3 / 10 ∨
      (key_callback glm key scancode action mods s).light.position.x = 1 / 10) ∧
    ((key_callback glm key scancode action mods s).light.position.y = s.light.position.y ∨
      (key_callback glm key scancode action mods s).light.position.y
        = s.light.position.y + 3 / 10 ∨
      (10 < s.light.position.y ∧
        (key_callback glm key scancode action mods s).light.position.y
          = s.light.position.y - 3 / 10) ∨
      (key_callback glm key scancode action mods s).light.position.y = 10) ∧
    (key_callback glm key scancode action mods s).light.forward = s.light.forward := by
  unfold key_callback
  by_cases ha : action = GLFW_PRESS ∨ action = GLFW_REPEAT
  · rw [if_pos ha]
    simp only [LightParams.recaliberate, GLFW_KEY_W, GLFW_KEY_S, GLFW_KEY_D, GLFW_KEY_A,
      GLFW_KEY_SPACE, GLFW_KEY_LEFT_SHIFT, GLFW_KEY_R, vec3.add, vec3.scale, speed]
    by_cases hW : key = 87
    · subst hW; simp
    by_cases hS : key = 83
    · subst hS; simp
    by_cases hD : key = 68
    · subst hD; simp
    by_cases hA : key = 65
    · subst hA
      refine ⟨Or.inr (Or.inr (Or.inl ?_)), Or.inl ?_, ?_⟩ <;> simp
      ring
    by_cases hSp : key = 32
    · subst hSp; simp
    by_cases hR : key = 82
    · subst hR; simp
    by_cases hL : key = 340
    · subst hL
      by_cases hy : 10 < s.light.position.y
      · refine ⟨Or.inl ?_, Or.inr (Or.inr (Or.inl ⟨hy, ?_⟩)), ?_⟩ <;> simp [hy]
        ring
      · simp [hy]
    · simp [hW, hS, hD, hA, hSp, hR, hL]
  · rw [if_neg ha]
    simp

/-- A property kept by every call of `key_callback` is kept by every sequence of events. -/
theorem runKeys_invariant {α : Type} [LinearOrderedField α] (glm : GlmLib α)
    (P : ProgState α → Prop)
    (hstep : ∀ (key scancode action mods : Int) (s : ProgState α), P s →
      P (key_callback glm key scancode action mods s))
    (evs : List KeyEvent) : ∀ s : ProgState α, P s → P (runKeys glm evs s) := by
  induction evs with
  | nil => intro s h; exact h
  | cons e evs ih =>
    intro s h
    exact ih _ (hstep e.key e.scancode e.action e.mods s h)

/-- In every state reached from `initMatrices`, `10 * x` is `1` modulo `3` and `forward` is
the zero vector. -/
theorem runKeys_x_forward {α : Type} [LinearOrderedField α] (glm : GlmLib α)
    (shadowType : Nat) (u : shaderParams) (evs : List KeyEvent) :
    (∃ n : Int,
      10 * (runKeys glm evs ⟨shadowType, u, LightParams.initMatrices glm⟩).light.position.x
        = 3 * (n : α) + 1) ∧
    (runKeys glm evs ⟨shadowType, u, LightParams.initMatrices glm⟩).light.forward
      = ⟨0, 0, 0⟩ := by
  refine runKeys_invariant glm
    (fun s => (∃ n : Int, 10 * s.light.position.x = 3 * (n : α) + 1) ∧
      s.light.forward = ⟨0, 0, 0⟩) ?_ evs _ ?_
  · intro key scancode action mods s hs
    obtain ⟨⟨n, hn⟩, hf⟩ := hs
    obtain ⟨hx, -, hfw⟩ := key_callback_position glm key scancode action mods s
    refine ⟨?_, by rw [hfw, hf]⟩
    rcases hx with h | h | h | h
    · exact ⟨n, by rw [h, hn]⟩
    · refine ⟨n + 1, ?_⟩
      rw [h]; push_cast; linear_combination hn
    · refine ⟨n - 1, ?_⟩
      rw [h]; push_cast; linear_combination hn
    · refine ⟨0, ?_⟩
      rw [h]; norm_num
  · refine ⟨⟨3, ?_⟩, rfl⟩
    simp [LightParams.initMatrices]
    norm_num

/-- An integer that is `1` modulo `3` is not zero in an ordered field. -/
theorem three_mul_add_one_ne_zero {α : Type} [LinearOrderedField α] (n : Int) :
    3 * (n : α) + 1 ≠ 0 := by
  intro h
  have h2 : ((3 * n + 1 : Int) : α) = 0 := by push_cast; exact h
  have h3 : (3 * n + 1 : Int) = 0 := by exact_mod_cast h2
  omega

/-- In exact arithmetic, in every state reached from `initMatrices`, `y = 10 + 3 n / 10` for
a natural `n`. -/
theorem runKeys_height {α : Type} [LinearOrderedField α] (glm : GlmLib α)
    (shadowType : Nat) (u : shaderParams) (evs : List KeyEvent) :
    ∃ n : Nat,
      (runKeys glm evs ⟨shadowType, u, LightParams.initMatrices glm⟩).light.position.y
        = 10 + 3 * (n : α) / 10 := by
  refine runKeys_invariant glm
    (fun s => ∃ n : Nat, s.light.position.y = 10 + 3 * (n : α) / 10) ?_ evs _ ?_
  · intro key scancode action mods s hs
    obtain ⟨n, hn⟩ := hs
    obtain ⟨-, hy, -⟩ := key_callback_position glm key scancode action mods s
    rcases hy with h | h | ⟨hgt, h⟩ | h
    · exact ⟨n, by rw [h, hn]⟩
    · refine ⟨n + 1, ?_⟩
      rw [h, hn]; push_cast; ring
    · cases n with
      | zero =>
        rw [hn] at hgt
        simp at hgt
      | succ m =>
        refine ⟨m, ?_⟩
        rw [h, hn]; push_cast; ring
    · exact ⟨0, by rw [h]; simp⟩
  · exact ⟨0, by simp [LightParams.initMatrices]⟩

/-- The position after the key LEFT_SHIFT, in exact arithmetic. -/
theorem key_callback_shift_position {α : Type} [LinearOrderedField α] (glm : GlmLib α)
    (s : ProgState α) (p : KeyAction) (scancode mods : Int) :
    (key_callback glm GLFW_KEY_LEFT_SHIFT scancode p.code mods s).light.position
      = if 10 < s.light.position.y then
          ⟨s.light.position.x, s.light.position.y - 3 / 10, s.light.position.z⟩
        else s.light.position := by
  by_cases hy : 10 < s.light.position.y
  · cases p <;>
      simp [key_callback, KeyAction.code, GLFW_PRESS, GLFW_REPEAT, GLFW_KEY_W, GLFW_KEY_S,
        GLFW_KEY_D, GLFW_KEY_A, GLFW_KEY_SPACE, GLFW_KEY_LEFT_SHIFT, GLFW_KEY_R,
        LightParams.recaliberate, hy, vec3.add, vec3.scale, speed] <;> ring
  · cases p <;>
      simp [key_callback, KeyAction.code, GLFW_PRESS, GLFW_REPEAT, GLFW_KEY_W, GLFW_KEY_S,
        GLFW_KEY_D, GLFW_KEY_A, GLFW_KEY_SPACE, GLFW_KEY_LEFT_SHIFT, GLFW_KEY_R,
        LightParams.recaliberate, hy]

/-- The bias matrix applied to a point `(x, y, z, 1)`. -/
theorem biasMatrix_mulVec {α : Type} [Field α] (x y z : α) :
    (biasMatrix : mat4 α).mulVec ![x, y, z, 1]
      = ![(x + 1) / 2, (y + 1) / 2, (z + 1) / 2, 1] := by
  funext i
  fin_cases i <;> simp [biasMatrix, Matrix.mulVec, Matrix.dotProduct, Fin.sum_univ_four] <;> ring

/-- The map `x -> (x + 1) / 2` sends exactly `[-1, 1]` to `[0, 1]`. -/
theorem half_range {α : Type} [LinearOrderedField α] (x : α) :
    (0 ≤ (x + 1) / 2 ∧ (x + 1) / 2 ≤ 1) ↔ (-1 ≤ x ∧ x ≤ 1) := by
  constructor
  · rintro ⟨h1, h2⟩
    constructor <;> linarith
  · rintro ⟨h1, h2⟩
    constructor <;> linarith

/-! ## Generator, shader loading and filtering: auxiliary facts -/

/-- The loop body does not read the replaced values: it is the body of the source. -/
theorem innerBodyWith_eq {α : Type} [Field α] (x2f y2f : Int → Int → Int → Int)
    (sqrtf cosf : α → α) (RAND_MAX : Int) (rand : Nat → Int)
    (size samplesU samplesV i j k : Int) (st : GenState α) :
    innerBodyWith x2f y2f sqrtf cosf RAND_MAX rand size samplesU samplesV i j k st
      = innerBody sqrtf cosf RAND_MAX rand size samplesU samplesV i j k st := rfl

/-- A call of `createShader` only appends events. -/
theorem createShader_extends (gl : GLDriver) (sourceCode : Bytes) (shaderType : Nat)
    (log : List GLEvent) : log <+: (createShader gl sourceCode shaderType log).1 := by
  unfold createShader
  split
  · exact List.prefix_append _ _
  · simp only [List.append_assoc]
    exact List.prefix_append _ _

/-- A call of `createShader` hands its argument to `glShaderSource` and compiles it. -/
theorem createShader_compiles (gl : GLDriver) (sourceCode : Bytes) (shaderType : Nat)
    (log : List GLEvent) :
    compileEvents (createShader gl sourceCode shaderType log).2 sourceCode
      <:+: (createShader gl sourceCode shaderType log).1 := by
  unfold createShader compileEvents
  split
  · exact ⟨log ++ [.glCreateShader shaderType],
      [.glGetShaderiv (gl.createShader shaderType log.length) GL_COMPILE_STATUS], by simp⟩
  · exact ⟨log ++ [.glCreateShader shaderType],
      [.glGetShaderiv (gl.createShader shaderType log.length) GL_COMPILE_STATUS,
        .glGetShaderInfoLog (gl.createShader shaderType log.length),
        .cout ("The shader failed to compile with the error:\n"
          ++ gl.infoLog sourceCode shaderType ++ "\n"),
        .glDeleteShader (gl.createShader shaderType log.length)], by simp⟩

/-- In a run of `init()` each of the four strings returned by `readShader` is handed to
`glShaderSource` and compiled. -/
theorem init_compiles (gl : GLDriver) (textMode : Bytes → Bytes)
    (fs : String → Option Bytes) :
    (∃ shader, compileEvents shader (readShader textMode fs "VertexShader.glsl").2
      <:+: (init gl textMode fs).log) ∧
    (∃ shader, compileEvents shader (readShader textMode fs "FragmentShader.glsl").2
      <:+: (init gl textMode fs).log) ∧
    (∃ shader, compileEvents shader (readShader textMode fs "LightVertexShader.glsl").2
      <:+: (init gl textMode fs).log) ∧
    (∃ shader, compileEvents shader (readShader textMode fs "LightFragShader.glsl").2
      <:+: (init gl textMode fs).log) := by
  simp only [init]
  refine ⟨?_, ?_, ?_, ?_⟩
  · apply Exists.intro
    refine List.IsInfix.trans ?_ (List.prefix_append _ _).isInfix
    refine List.IsInfix.trans ?_ (createShader_extends gl _ _ _).isInfix
    refine List.IsInfix.trans ?_ (createShader_extends gl _ _ _).isInfix
    refine List.IsInfix.trans ?_ (List.prefix_append _ _).isInfix
    refine List.IsInfix.trans ?_ (List.prefix_append _ _).isInfix
    refine List.IsInfix.trans ?_ (List.prefix_append _ _).isInfix
    refine List.IsInfix.trans ?_ (createShader_extends gl _ _ _).isInfix
    exact createShader_compiles gl _ _ _
  · apply Exists.intro
    refine List.IsInfix.trans ?_ (List.prefix_append _ _).isInfix
    refine List.IsInfix.trans ?_ (createShader_extends gl _ _ _).isInfix
    refine List.IsInfix.trans ?_ (createShader_extends gl _ _ _).isInfix
    refine List.IsInfix.trans ?_ (List.prefix_append _ _).isInfix
    refine List.IsInfix.trans ?_ (List.prefix_append _ _).isInfix
    refine List.IsInfix.trans ?_ (List.prefix_append _ _).isInfix
    exact createShader_compiles gl _ _ _
  · apply Exists.intro
    refine List.IsInfix.trans ?_ (List.prefix_append _ _).isInfix
    refine List.IsInfix.trans ?_ (createShader_extends gl _ _ _).isInfix
    exact createShader_compiles gl _ _ _
  · apply Exists.intro
    refine List.IsInfix.trans ?_ (List.prefix_append _ _).isInfix
    exact createShader_compiles gl _ _ _

/-- The result of `readShader` for a file that cannot be opened: the diagnostic is written
and the empty string is returned. -/
theorem readShader_missing (textMode : Bytes → Bytes) (fs : String → Option Bytes)
    (fileName : String) (h : fs fileName = none) :
    readShader textMode fs fileName = (["Can't read file: " ++ fileName ++ "\n"], []) := by
  simp [readShader, h]

/-- The result of `readShader` for a file of fewer than `2^32` bytes that text mode
delivers unchanged: the bytes of the file. -/
theorem readShader_readable (textMode : Bytes → Bytes) (fs : String → Option Bytes)
    (fileName : String) (bytes : Bytes) (h : fs fileName = some bytes)
    (hlen : bytes.length < 2 ^ 32) (htext : textMode bytes = bytes) :
    readShader textMode fs fileName = ([], bytes) := by
  have hm : bytes.length % 2 ^ 32 = bytes.length := Nat.mod_eq_of_lt hlen
  unfold readShader
  rw [h]
  simp only [htext, hm, List.length_replicate, List.take_length]
  simp

/-- The empty source is handed to the compiler as the source of size `0`. -/
theorem compileEvents_nil (shader : Nat) :
    compileEvents shader []
      = [GLEvent.glShaderSource shader [] 0, GLEvent.glCompileShader shader] := by
  simp [compileEvents, toInt32]

/-- A depth comparison gives `0` or `1`. -/
theorem depthCompare_binary {α : Type} [LinearOrderedField α] (map : ShadowMap α)
    (f : Fragment α) (offset : α × α) :
    depthCompare map f offset = 0 ∨ depthCompare map f offset = 1 := by
  unfold depthCompare
  split
  · exact Or.inr rfl
  · exact Or.inl rfl

/-- The sum of numbers from `[0, 1]` lies between `0` and their count. -/
theorem sum_bounds {α : Type} [LinearOrderedField α] (l : List α)
    (h : ∀ c ∈ l, 0 ≤ c ∧ c ≤ 1) : 0 ≤ l.sum ∧ l.sum ≤ (l.length : α) := by
  induction l with
  | nil => simp
  | cons a l ih =>
    have ha := h a (List.mem_cons_self a l)
    have hl := ih (fun c hc => h c (List.mem_cons_of_mem a hc))
    simp only [List.sum_cons, List.length_cons, Nat.cast_add, Nat.cast_one]
    constructor <;> linarith [ha.1, ha.2, hl.1, hl.2]

/-- The average of numbers from `[0, 1]` lies in `[0, 1]`. -/
theorem average_bounds {α : Type} [LinearOrderedField α] (l : List α)
    (h : ∀ c ∈ l, 0 ≤ c ∧ c ≤ 1) : 0 ≤ average l ∧ average l ≤ 1 := by
  obtain ⟨h0, h1⟩ := sum_bounds l h
  unfold average
  have hn : (0 : α) ≤ (l.length : α) := Nat.cast_nonneg _
  refine ⟨div_nonneg h0 hn, ?_⟩
  rcases hn.lt_or_eq with hpos | hzero
  · exact (div_le_one hpos).2 h1
  · rw [← hzero]; simp

/-- Depth comparisons lie in `[0, 1]`. -/
theorem comparisons_unit {α : Type} [LinearOrderedField α] (map : ShadowMap α)
    (f : Fragment α) (offs : List (α × α)) :
    ∀ c ∈ offs.map (depthCompare map f), 0 ≤ c ∧ c ≤ 1 := by
  intro c hc
  obtain ⟨o, -, rfl⟩ := List.mem_map.1 hc
  rcases depthCompare_binary map f o with h | h <;> rw [h] <;> simp

/-- PCF makes 16 comparisons, each `0` or `1`. -/
theorem PCFcomparisons_binary {α : Type} [LinearOrderedField α] (nbhd : Fin 4 → Fin 4 → α × α)
    (map : ShadowMap α) (f : Fragment α) :
    (PCFcomparisons nbhd map f).length = 16 ∧
      ∀ c ∈ PCFcomparisons nbhd map f, c = 0 ∨ c = 1 := by
  constructor
  · simp [PCFcomparisons, List.finRange]
  · intro c hc
    simp only [PCFcomparisons, List.mem_flatMap, List.mem_map] at hc
    obtain ⟨i, -, j, -, rfl⟩ := hc
    exact depthCompare_binary map f _

/-- Quotient and remainder by `s` are unique. -/
theorem divmod_unique {s a i a2 i2 : Int} (hi0 : 0 ≤ i) (hi : i < s) (hj0 : 0 ≤ i2)
    (hj : i2 < s) (h : a * s + i = a2 * s + i2) : a = a2 ∧ i = i2 := by
  have hs : 0 < s := by omega
  have e1 : (a * s + i) % s = i := by
    rw [add_comm, Int.add_mul_emod_self, Int.emod_eq_of_lt hi0 hi]
  have e2 : (a2 * s + i2) % s = i2 := by
    rw [add_comm, Int.add_mul_emod_self, Int.emod_eq_of_lt hj0 hj]
  have hii : i = i2 := by rw [← e1, ← e2, h]
  subst hii
  have : a * s = a2 * s := by omega
  exact ⟨Int.eq_of_mul_eq_mul_right (by omega) this, rfl⟩

/-- The index determines the tile `(i, j)`, the pair number `t` and the component `c`. -/
theorem index_inj (size i j t c i2 j2 t2 c2 : Int) (hi0 : 0 ≤ i) (hi : i < size)
    (hj0 : 0 ≤ j) (hj : j < size) (hc0 : 0 ≤ c) (hc : c ≤ 3)
    (hi20 : 0 ≤ i2) (hi2 : i2 < size) (hj20 : 0 ≤ j2) (hj2 : j2 < size) (hc20 : 0 ≤ c2)
    (hc2 : c2 ≤ 3)
    (h : (t * size * size + j * size + i) * 4 + c = (t2 * size * size + j2 * size + i2) * 4 + c2) :
    i = i2 ∧ j = j2 ∧ t = t2 ∧ c = c2 := by
  have hcc : c = c2 := by omega
  have hA : (t * size + j) * size + i = (t2 * size + j2) * size + i2 := by
    have : t * size * size + j * size + i = t2 * size * size + j2 * size + i2 := by omega
    linear_combination this
  obtain ⟨h1, hii⟩ := divmod_unique hi0 hi hi20 hi2 hA
  obtain ⟨htt, hjj⟩ := divmod_unique hj0 hj hj20 hj2 h1
  exact ⟨hii, hjj, htt, hcc⟩

/-- Membership in the four indices of one iteration. -/
theorem mem_cellIndices {size i j k idx : Int} :
    idx ∈ cellIndices size i j k ↔ ∃ c : Int, 0 ≤ c ∧ c ≤ 3 ∧ idx = cellIndex size i j k + c := by
  simp only [cellIndices, List.mem_cons, List.mem_singleton, List.not_mem_nil, or_false]
  constructor
  · rintro (h | h | h | h)
    · exact ⟨0, by omega, by omega, h⟩
    · exact ⟨1, by omega, by omega, h⟩
    · exact ⟨2, by omega, by omega, h⟩
    · exact ⟨3, by omega, by omega, h⟩
  · rintro ⟨c, h0, h3, rfl⟩
    have : c = 0 ∨ c = 1 ∨ c = 2 ∨ c = 3 := by omega
    rcases this with h | h | h | h <;> simp [h]

/-- The cell of the iteration `k = 2 * t`. -/
theorem cellIndex_two_mul (size i j t : Int) :
    cellIndex size i j (2 * t) = (t * size * size + j * size + i) * 4 := by
  unfold cellIndex
  rw [Int.mul_tdiv_cancel_left _ (by decide)]

/-- No index is written twice. -/
theorem indexTrace_nodup (size samples : Int) : (indexTrace size samples).Nodup := by
  unfold indexTrace
  rw [List.nodup_flatMap]
  constructor
  · intro i hi
    rw [List.nodup_flatMap]
    constructor
    · intro j hj
      rw [List.nodup_flatMap]
      constructor
      · intro t _
        simp only [cellIndices, List.nodup_cons, List.mem_cons, List.mem_singleton,
          List.not_mem_nil, List.nodup_nil, or_false, and_true, not_or]
        generalize cellIndex size i j (2 * (t : Int)) = n
        refine ⟨⟨?_, ?_, ?_⟩, ⟨?_, ?_⟩, ?_, not_false⟩ <;> omega
      · refine (List.nodup_range _).pairwise_of_forall_ne ?_
        intro t _ t2 _ hne
        simp only [Function.onFun]
        rw [List.disjoint_left]
        intro idx h1 h2
        rw [mem_cellIndices, cellIndex_two_mul] at h1 h2
        obtain ⟨c, hc0, hc, e1⟩ := h1
        obtain ⟨c2, hc20, hc2, e2⟩ := h2
        rw [List.mem_range] at hi hj
        have := index_inj size i j t c i j t2 c2 (by omega) (by omega) (by omega) (by omega) hc0 hc
          (by omega) (by omega) (by omega) (by omega) hc20 hc2 (by rw [← e1, ← e2])
        exact hne (by exact_mod_cast this.2.2.1)
    · refine (List.nodup_range _).pairwise_of_forall_ne ?_
      intro j hj j2 hj2 hne
      simp only [Function.onFun]
      rw [List.disjoint_left]
      intro idx h1 h2
      simp only [List.mem_flatMap, List.mem_range, mem_cellIndices, cellIndex_two_mul] at h1 h2
      obtain ⟨t, _, c, hc0, hc, e1⟩ := h1
      obtain ⟨t2, _, c2, hc20, hc2, e2⟩ := h2
      rw [List.mem_range] at hi hj hj2
      have := index_inj size i j t c i j2 t2 c2 (by omega) (by omega) (by omega) (by omega) hc0 hc
        (by omega) (by omega) (by omega) (by omega) hc20 hc2 (by rw [← e1, ← e2])
      exact hne (by exact_mod_cast this.2.1)
  · refine (List.nodup_range _).pairwise_of_forall_ne ?_
    intro i hi i2 hi2 hne
    simp only [Function.onFun]
    rw [List.disjoint_left]
    intro idx h1 h2
    simp only [List.mem_flatMap, List.mem_range, mem_cellIndices, cellIndex_two_mul] at h1 h2
    obtain ⟨j, hj, t, _, c, hc0, hc, e1⟩ := h1
    obtain ⟨j2, hj2, t2, _, c2, hc20, hc2, e2⟩ := h2
    rw [List.mem_range] at hi hi2
    have := index_inj size i j t c i2 j2 t2 c2 (by omega) (by omega) (by omega) (by omega) hc0 hc
      (by omega) (by omega) (by omega) (by omega) hc20 hc2 (by rw [← e1, ← e2])
    exact hne (by exact_mod_cast this.1)

/-- For an even sample count every index below the buffer length is written. -/
theorem mem_indexTrace_of_lt {size samples idx : Int} (hs : 0 ≤ size)
    (heven : samples % 2 = 0) (h0 : 0 ≤ idx) (h : idx < size * size * samples * 2) :
    idx ∈ indexTrace size samples := by
  have hs1 : 0 < size := by
    rcases hs.lt_or_eq with h1 | h1
    · exact h1
    · rw [← h1] at h; simp at h; omega
  obtain ⟨m, hm⟩ : ∃ m : Int, samples = 2 * m := ⟨samples / 2, by omega⟩
  have hq : idx / 4 < size * m * size := by
    have : idx < size * m * size * 4 := by rw [hm] at h; linarith
    omega
  have hr : idx / 4 / size < size * m := Int.ediv_lt_of_lt_mul hs1 hq
  have ht : idx / 4 / size / size < m :=
    Int.ediv_lt_of_lt_mul hs1 (by rw [mul_comm]; exact hr)
  have hq0 : 0 ≤ idx / 4 := by omega
  have hr0 : 0 ≤ idx / 4 / size := Int.ediv_nonneg hq0 hs
  have ht0 : 0 ≤ idx / 4 / size / size := Int.ediv_nonneg hr0 hs
  have e1 := Int.ediv_add_emod (idx / 4) size
  have e2 := Int.ediv_add_emod (idx / 4 / size) size
  have key := mem_indexTrace_of size samples ((idx / 4) % size) ((idx / 4 / size) % size)
    (idx / 4 / size / size) (idx % 4)
    (Int.emod_nonneg _ (by omega)) (Int.emod_lt_of_pos _ hs1)
    (Int.emod_nonneg _ (by omega)) (Int.emod_lt_of_pos _ hs1) ht0 (by omega) (by omega)
    (by omega)
  have e : (idx / 4 / size / size * size * size + idx / 4 / size % size * size
      + idx / 4 % size) * 4 + idx % 4 = idx := by
    have e3 : idx / 4 / size / size * size * size + idx / 4 / size % size * size
        + idx / 4 % size = idx / 4 := by
      linear_combination size * e2 + e1
    rw [e3]; omega
  rw [e] at key
  exact key

/-- For an even sample count every written index is inside the buffer. -/
theorem indexTrace_bounds {size samples idx : Int} (heven : samples % 2 = 0)
    (h : idx ∈ indexTrace size samples) : 0 ≤ idx ∧ idx < size * size * samples * 2 := by
  obtain ⟨i, j, t, c, hi0, hi, hj0, hj, ht0, ht, hc0, hc, rfl⟩ := mem_indexTrace h
  constructor
  · have h1 : 0 ≤ t * size * size := by
      rw [mul_assoc]; exact mul_nonneg ht0 (mul_self_nonneg size)
    have h2 : 0 ≤ j * size := mul_nonneg hj0 (by omega)
    omega
  · exact index_lt_bufSize size samples i j t c hi0 hi hj0 hj ht0 (by omega) hc

/-! ## The view matrices before and after the first key press -/

/-- Two entries of the view matrix built by `initMatrices` (up vector `(0, 0, 1)`). -/
theorem initView_entries (tanHalf : ℝ → ℝ) :
    (LightParams.initMatrices (glmLib Real.sqrt tanHalf)).View 0 2 = 0 ∧
    (LightParams.initMatrices (glmLib Real.sqrt tanHalf)).View 2 2 = 0 := by
  constructor <;>
  simp [LightParams.initMatrices, glmLib, glmLookAt, vec3.normalize, vec3.cross, vec3.sub,
    vec3.scale, vec3.dot]

/-- The same two entries after `recaliberate` (up vector `(0, 1, 0)`). -/
theorem recalView_entries (tanHalf : ℝ → ℝ) :
    (LightParams.recaliberate (glmLib Real.sqrt tanHalf)
      (LightParams.initMatrices (glmLib Real.sqrt tanHalf))).View 0 2 = -1 ∧
    (LightParams.recaliberate (glmLib Real.sqrt tanHalf)
      (LightParams.initMatrices (glmLib Real.sqrt tanHalf))).View 2 2 = 0 := by
  have h : Real.sqrt (1 + 10 * 10) ≠ 0 := Real.sqrt_ne_zero'.2 (by norm_num)
  constructor
  · simp [LightParams.initMatrices, LightParams.recaliberate, glmLib, glmLookAt,
      vec3.normalize, vec3.cross, vec3.sub, vec3.scale, vec3.dot]
    exact inv_mul_cancel₀ h
  · simp [LightParams.initMatrices, LightParams.recaliberate, glmLib, glmLookAt,
      vec3.normalize, vec3.cross, vec3.sub, vec3.scale, vec3.dot]
    rfl

/-- The entry in row 0, column 2 of `Bias * (Projection * V)` for the projection of
`initMatrices`. -/
theorem shadow_entry (tanHalf : ℝ → ℝ) (V : mat4 ℝ) :
    ((biasMatrix : mat4 ℝ) * (glmPerspective tanHalf 45 (TextureSize / TextureSize) (1 / 10) 100
      * V)) 0 2 = 1 / 2 * (1 / tanHalf 45) * V 0 2 - 1 / 2 * V 2 2 := by
  simp [biasMatrix, glmPerspective, Matrix.mul_apply, Fin.sum_univ_four, TextureSize,
    Matrix.vecMul, Matrix.dotProduct]
  ring

/-- The tangent of `45 / 2` radians is not zero, since `pi` is irrational. -/
theorem tan_half_45_ne_zero : Real.tan (45 / 2) ≠ 0 := by
  rw [Real.tan_ne_zero_iff]
  intro k hk
  have hpi : (k : ℝ) * Real.pi = 45 := by linarith
  have hk0 : (k : ℝ) ≠ 0 := by
    intro h0
    rw [h0, zero_mul] at hpi
    norm_num at hpi
  have hirr := irrational_pi
  apply hirr
  refine ⟨(45 : ℚ) / (k : ℚ), ?_⟩
  push_cast
  field_simp
  linarith

/-! ## Single precision rounding and the height of the light -/

/-- The binary exponent of a rational between two consecutive powers of two. -/
theorem log_two_eq {x : ℚ} {k : ℤ} (h1 : (2 : ℚ) ^ k ≤ x) (h2 : x < (2 : ℚ) ^ (k + 1)) :
    Int.log 2 x = k := by
  have hx : 0 < x := lt_of_lt_of_le (zpow_pos (by norm_num) k) h1
  have a : k ≤ Int.log 2 x := (Int.zpow_le_iff_le_log (by norm_num) hx).1 (by exact_mod_cast h1)
  have b : Int.log 2 x < k + 1 := (Int.lt_zpow_iff_log_lt (by norm_num) hx).1 (by exact_mod_cast h2)
  omega

/-- Rounding to the nearest integer does not go below the floor. -/
theorem roundHalfEven_floor_le (t : ℚ) : ⌊t⌋ ≤ roundHalfEven t := by
  unfold roundHalfEven
  split_ifs <;> omega

/-- An integer not above `t` is not above the rounding of `t`. -/
theorem le_roundHalfEven {n : ℤ} {t : ℚ} (h : (n : ℚ) ≤ t) : n ≤ roundHalfEven t :=
  le_trans (Int.le_floor.2 h) (roundHalfEven_floor_le t)

/-- An integer is rounded to itself. -/
theorem roundHalfEven_intCast (n : ℤ) : roundHalfEven (n : ℚ) = n := by
  simp [roundHalfEven]

/-- The value of `roundF32` at a number whose binary exponent `k` is known. -/
theorem roundF32_of_exponent {x : ℚ} {k : ℤ} (h1 : (2 : ℚ) ^ k ≤ |x|)
    (h2 : |x| < (2 : ℚ) ^ (k + 1)) (hk : -126 ≤ k) :
    roundF32 x = roundHalfEven (x / 2 ^ (k - 23)) * 2 ^ (k - 23) := by
  unfold roundF32 ulpF32
  rw [log_two_eq h1 h2, max_eq_left hk]

/-- Rounding of a quotient of natural numbers, by division with remainder. -/
theorem roundHalfEven_div (m g : ℕ) (hg : 0 < g) :
    roundHalfEven ((m : ℚ) / g)
      = ((if 2 * (m % g) < g then m / g
          else if g < 2 * (m % g) then m / g + 1
          else if m / g % 2 = 0 then m / g else m / g + 1 : ℕ) : ℤ) := by
  have hgq : (0 : ℚ) < g := by exact_mod_cast hg
  have hfl : ⌊(m : ℚ) / g⌋ = ((m / g : ℕ) : ℤ) := by
    have := Rat.floor_intCast_div_natCast (m : ℤ) g
    simpa using this
  have hsplit : (m : ℚ) = (g : ℚ) * ((m / g : ℕ) : ℚ) + ((m % g : ℕ) : ℚ) := by
    exact_mod_cast (Nat.div_add_mod m g).symm
  have hfrac : (m : ℚ) / g - ((m / g : ℕ) : ℚ) = ((m % g : ℕ) : ℚ) / g := by
    field_simp
    linarith
  have h_lt : ((m % g : ℕ) : ℚ) / g < 1 / 2 ↔ 2 * (m % g) < g := by
    rw [div_lt_iff₀ hgq]
    constructor
    · intro h
      have h3 : ((2 * (m % g) : ℕ) : ℚ) < g := by push_cast; linarith
      exact_mod_cast h3
    · intro h
      have h3 : ((2 * (m % g) : ℕ) : ℚ) < g := by exact_mod_cast h
      push_cast at h3
      linarith
  have h_gt : 1 / 2 < ((m % g : ℕ) : ℚ) / g ↔ g < 2 * (m % g) := by
    rw [lt_div_iff₀ hgq]
    constructor
    · intro h
      have h3 : (g : ℚ) < ((2 * (m % g) : ℕ) : ℚ) := by push_cast; linarith
      exact_mod_cast h3
    · intro h
      have h3 : (g : ℚ) < ((2 * (m % g) : ℕ) : ℚ) := by exact_mod_cast h
      push_cast at h3
      linarith
  have h_par : ((m / g : ℕ) : ℤ) % 2 = 0 ↔ m / g % 2 = 0 := by omega
  unfold roundHalfEven
  rw [hfl]
  simp only [Int.cast_natCast, hfrac, h_lt, h_gt, h_par]
  split_ifs <;> simp

/-- The result of `roundBits` as a multiple of the spacing. -/
theorem roundBits_eq (m : ℕ) :
    roundBits m
      = (if 2 * (m % 2 ^ (Nat.findGreatest (fun e => 2 ^ e ≤ m) 40 - 23))
            < 2 ^ (Nat.findGreatest (fun e => 2 ^ e ≤ m) 40 - 23)
          then m / 2 ^ (Nat.findGreatest (fun e => 2 ^ e ≤ m) 40 - 23)
          else if 2 ^ (Nat.findGreatest (fun e => 2 ^ e ≤ m) 40 - 23)
            < 2 * (m % 2 ^ (Nat.findGreatest (fun e => 2 ^ e ≤ m) 40 - 23))
          then m / 2 ^ (Nat.findGreatest (fun e => 2 ^ e ≤ m) 40 - 23) + 1
          else if m / 2 ^ (Nat.findGreatest (fun e => 2 ^ e ≤ m) 40 - 23) % 2 = 0
          then m / 2 ^ (Nat.findGreatest (fun e => 2 ^ e ≤ m) 40 - 23)
          else m / 2 ^ (Nat.findGreatest (fun e => 2 ^ e ≤ m) 40 - 23) + 1)
        * 2 ^ (Nat.findGreatest (fun e => 2 ^ e ≤ m) 40 - 23) := by
  simp only [roundBits]
  split_ifs <;> rfl

/-- On the multiples of `2 ^ (-25)` between `2 ^ (-2)` and `2 ^ 16`, `roundF32` is
`roundBits` on the number of units. -/
theorem roundF32_units (m : ℕ) (h1 : 2 ^ 23 ≤ m) (h2 : m < 2 ^ 41) :
    roundF32 ((m : ℚ) / 2 ^ 25) = (roundBits m : ℚ) / 2 ^ 25 := by
  have he1 : 2 ^ Nat.findGreatest (fun e => 2 ^ e ≤ m) 40 ≤ m :=
    Nat.findGreatest_spec (P := fun e => 2 ^ e ≤ m) (by norm_num : 23 ≤ 40) h1
  have he23 : 23 ≤ Nat.findGreatest (fun e => 2 ^ e ≤ m) 40 :=
    Nat.le_findGreatest (by norm_num) h1
  have he40 : Nat.findGreatest (fun e => 2 ^ e ≤ m) 40 ≤ 40 := Nat.findGreatest_le _
  have he2 : m < 2 ^ (Nat.findGreatest (fun e => 2 ^ e ≤ m) 40 + 1) := by
    by_cases h40 : Nat.findGreatest (fun e => 2 ^ e ≤ m) 40 = 40
    · rw [h40]; exact h2
    · have hgr := Nat.findGreatest_is_greatest (P := fun e => 2 ^ e ≤ m)
        (Nat.lt_succ_self (Nat.findGreatest (fun e => 2 ^ e ≤ m) 40)) (by omega)
      exact not_le.1 hgr
  rw [roundBits_eq]
  generalize Nat.findGreatest (fun e => 2 ^ e ≤ m) 40 = e at he1 he23 he40 he2 ⊢
  obtain ⟨sh, rfl⟩ : ∃ sh, e = sh + 23 := ⟨e - 23, by omega⟩
  simp only [Nat.add_sub_cancel]
  have hx0 : (0 : ℚ) ≤ (m : ℚ) / 2 ^ 25 := by positivity
  have hpow : ∀ n : ℕ, (2 : ℚ) ^ ((n : ℤ) - 25) = 2 ^ n / 2 ^ 25 := by
    intro n
    rw [zpow_sub₀ (by norm_num : (2 : ℚ) ≠ 0), zpow_natCast]
    norm_num
  have hlo : (2 : ℚ) ^ (((sh + 23 : ℕ) : ℤ) - 25) ≤ |(m : ℚ) / 2 ^ 25| := by
    rw [abs_of_nonneg hx0, hpow]
    have : ((2 ^ (sh + 23) : ℕ) : ℚ) ≤ m := by exact_mod_cast he1
    push_cast at this
    exact div_le_div_of_nonneg_right this (by positivity)
  have hhi : |(m : ℚ) / 2 ^ 25| < (2 : ℚ) ^ (((sh + 23 : ℕ) : ℤ) - 25 + 1) := by
    have e1 : ((sh + 23 : ℕ) : ℤ) - 25 + 1 = ((sh + 23 + 1 : ℕ) : ℤ) - 25 := by push_cast; ring
    rw [abs_of_nonneg hx0, e1, hpow]
    have : (m : ℚ) < ((2 ^ (sh + 23 + 1) : ℕ) : ℚ) := by exact_mod_cast he2
    push_cast at this
    exact div_lt_div_of_pos_right this (by positivity)
  rw [roundF32_of_exponent hlo hhi (by omega)]
  have e2 : ((sh + 23 : ℕ) : ℤ) - 25 - 23 = ((sh : ℕ) : ℤ) - 25 := by push_cast; ring
  rw [e2, hpow]
  have hg : (0 : ℚ) < 2 ^ sh := by positivity
  have e3 : (m : ℚ) / 2 ^ 25 / (2 ^ sh / 2 ^ 25) = (m : ℚ) / ((2 ^ sh : ℕ) : ℚ) := by
    push_cast
    field_simp
  rw [e3, roundHalfEven_div m (2 ^ sh) (by positivity), Int.cast_natCast, Nat.cast_mul,
    Nat.cast_pow, Nat.cast_ofNat]
  ring

/-- The constant `0.3f`: the macro `speed` rounded to `float`. -/
theorem roundF32_speed : roundF32 (speed : ℚ) = 10066330 / 2 ^ 25 := by
  have h1 : (2 : ℚ) ^ (-2 : ℤ) ≤ |(speed : ℚ)| := by
    rw [abs_of_nonneg (by norm_num [speed])]
    norm_num [speed, zpow_neg]
  have h2 : |(speed : ℚ)| < (2 : ℚ) ^ ((-2 : ℤ) + 1) := by
    rw [abs_of_nonneg (by norm_num [speed])]
    norm_num [speed, zpow_neg]
  rw [roundF32_of_exponent h1 h2 (by norm_num)]
  have hf : ⌊(speed : ℚ) / 2 ^ ((-2 : ℤ) - 23)⌋ = 10066329 := by
    rw [Int.floor_eq_iff]
    norm_num [speed, zpow_neg]
  unfold roundHalfEven
  rw [hf]
  norm_num [speed, zpow_neg]

/-- Zero is rounded to zero. -/
theorem roundF32_zero : roundF32 0 = 0 := by
  simp [roundF32, roundHalfEven]

/-- The numbers `0.3f` and `-0.3f` are of type `float`: rounding leaves them as they are. -/
theorem roundF32_step :
    roundF32 (10066330 / 2 ^ 25) = 10066330 / 2 ^ 25 ∧
    roundF32 (-(10066330 / 2 ^ 25)) = -(10066330 / 2 ^ 25) := by
  have h1 : (2 : ℚ) ^ (-2 : ℤ) ≤ |(10066330 / 2 ^ 25 : ℚ)| := by
    rw [abs_of_nonneg (by norm_num)]
    norm_num [zpow_neg]
  have h2 : |(10066330 / 2 ^ 25 : ℚ)| < (2 : ℚ) ^ ((-2 : ℤ) + 1) := by
    rw [abs_of_nonneg (by norm_num)]
    norm_num [zpow_neg]
  constructor
  · rw [roundF32_of_exponent h1 h2 (by norm_num)]
    have e : (10066330 / 2 ^ 25 : ℚ) / 2 ^ ((-2 : ℤ) - 23) = ((10066330 : ℤ) : ℚ) := by
      norm_num [zpow_neg]
    rw [e, roundHalfEven_intCast]
    norm_num [zpow_neg]
  · rw [← abs_neg] at h1 h2
    rw [roundF32_of_exponent h1 h2 (by norm_num)]
    have e : (-(10066330 / 2 ^ 25) : ℚ) / 2 ^ ((-2 : ℤ) - 23) = ((-10066330 : ℤ) : ℚ) := by
      norm_num [zpow_neg]
    rw [e, roundHalfEven_intCast]
    norm_num [zpow_neg]

/-- The height after `key_callback` with the key SPACE, in `float` arithmetic. -/
theorem float_space (p : vec3 ℚ) (a : KeyAction) (scancode mods : Int) :
    (key_callback_float roundF32 GLFW_KEY_SPACE scancode a.code mods p).y
      = roundF32 (p.y + 10066330 / 2 ^ 25) := by
  cases a <;>
    simp [key_callback_float, KeyAction.code, GLFW_PRESS, GLFW_REPEAT, GLFW_KEY_W, GLFW_KEY_S,
      GLFW_KEY_D, GLFW_KEY_A, GLFW_KEY_SPACE, GLFW_KEY_LEFT_SHIFT, GLFW_KEY_R, vec3.add,
      vec3.scale, vec3.map, roundF32_speed, roundF32_step.1]

/-- The position after `key_callback` with the key LEFT_SHIFT, in `float` arithmetic. -/
theorem float_left_shift (p : vec3 ℚ) (a : KeyAction) (scancode mods : Int) :
    key_callback_float roundF32 GLFW_KEY_LEFT_SHIFT scancode a.code mods p
      = if p.y > 10 then
          ⟨roundF32 p.x, roundF32 (p.y - 10066330 / 2 ^ 25), roundF32 p.z⟩
        else p := by
  cases a <;>
    simp [key_callback_float, KeyAction.code, GLFW_PRESS, GLFW_REPEAT, GLFW_KEY_W, GLFW_KEY_S,
      GLFW_KEY_D, GLFW_KEY_A, GLFW_KEY_SPACE, GLFW_KEY_LEFT_SHIFT, GLFW_KEY_R, vec3.add,
      vec3.scale, vec3.map, roundF32_speed, roundF32_step.2, roundF32_zero, sub_eq_add_neg]

/-- The run of `n` presses of the SPACE key in `float` arithmetic is computed by `climb`. -/
theorem climb_spec (n : ℕ) : ∀ (h z : ℕ) (p : vec3 ℚ), climb n h = some z →
    p.y = (h : ℚ) / 2 ^ 25 →
    (runKeys_float roundF32 (List.replicate n ⟨GLFW_KEY_SPACE, 0, GLFW_PRESS, 0⟩) p).y
      = (z : ℚ) / 2 ^ 25 := by
  induction n with
  | zero =>
    intro h z p hc hp
    simp only [climb, Option.some.injEq] at hc
    subst hc
    simpa [runKeys_float] using hp
  | succ n ih =>
    intro h z p hc hp
    simp only [climb] at hc
    split at hc
    · rename_i hr
      have hstep : (key_callback_float roundF32 GLFW_KEY_SPACE 0 GLFW_PRESS 0 p).y
          = ((roundBits (h + 10066330) : ℕ) : ℚ) / 2 ^ 25 := by
        have h1 := float_space p KeyAction.PRESS 0 0
        rw [show KeyAction.PRESS.code = GLFW_PRESS from rfl] at h1
        rw [h1, hp, ← roundF32_units (h + 10066330) hr.1 hr.2]
        congr 1
        push_cast
        ring
      have := ih (roundBits (h + 10066330)) z _ hc hstep
      simpa [runKeys_float, List.replicate_succ] using this
    · exact absurd hc (by simp)

/-- The run of `n` presses of the LEFT_SHIFT key in `float` arithmetic is computed by
`descend`. -/
theorem descend_spec (n : ℕ) : ∀ (h z : ℕ) (p : vec3 ℚ), descend n h = some z →
    p.y = (h : ℚ) / 2 ^ 25 →
    (runKeys_float roundF32 (List.replicate n ⟨GLFW_KEY_LEFT_SHIFT, 0, GLFW_PRESS, 0⟩) p).y
      = (z : ℚ) / 2 ^ 25 := by
  induction n with
  | zero =>
    intro h z p hc hp
    simp only [descend, Option.some.injEq] at hc
    subst hc
    simpa [runKeys_float] using hp
  | succ n ih =>
    intro h z p hc hp
    have h1 := float_left_shift p KeyAction.PRESS 0 0
    rw [show KeyAction.PRESS.code = GLFW_PRESS from rfl] at h1
    have hgt : p.y > 10 ↔ 10 * 2 ^ 25 < h := by
      rw [hp, gt_iff_lt, lt_div_iff₀ (by positivity)]
      constructor
      · intro h2
        have h3 : ((10 * 2 ^ 25 : ℕ) : ℚ) < (h : ℚ) := by push_cast; linarith
        exact_mod_cast h3
      · intro h2
        have h3 : ((10 * 2 ^ 25 : ℕ) : ℚ) < (h : ℚ) := by exact_mod_cast h2
        push_cast at h3
        linarith
    simp only [descend] at hc
    split at hc
    · rename_i hlow
      split at hc
      · rename_i hup
        have hstep : (key_callback_float roundF32 GLFW_KEY_LEFT_SHIFT 0 GLFW_PRESS 0 p).y
            = ((roundBits (h - 10066330) : ℕ) : ℚ) / 2 ^ 25 := by
          rw [h1, if_pos (hgt.2 hlow)]
          show roundF32 (p.y - 10066330 / 2 ^ 25) = _
          rw [hp, ← roundF32_units (h - 10066330) (by omega) (by omega)]
          congr 1
          rw [Nat.cast_sub (by omega)]
          push_cast
          ring
        have := ih (roundBits (h - 10066330)) z _ hc hstep
        simpa [runKeys_float, List.replicate_succ] using this
      · exact absurd hc (by simp)
    · rename_i hlow
      have hstep : key_callback_float roundF32 GLFW_KEY_LEFT_SHIFT 0 GLFW_PRESS 0 p = p := by
        rw [h1, if_neg (fun hh => hlow (hgt.1 hh))]
      have := ih h z p hc hp
      simpa [runKeys_float, List.replicate_succ, hstep] using this

set_option maxRecDepth 100000 in
/-- The height, in units of `2 ^ (-25)`, after 3381 presses of SPACE from the height 10. -/
theorem climb_3381 : climb 3381 335544320 = some 34368819200 := by decide!

set_option maxRecDepth 100000 in
/-- The height, in units of `2 ^ (-25)`, after 3382 presses of LEFT_SHIFT from there. -/
theorem descend_3382 : descend 3382 34368819200 = some 325480032 := by decide!

/-- A number not below `10171187 / 2 ^ 20`, which is a `float`, is not rounded below it. -/
theorem roundF32_floor {x : ℚ} (hx : 10171187 / 2 ^ 20 ≤ x) :
    10171187 / 2 ^ 20 ≤ roundF32 x := by
  have hpos : 0 < x := lt_of_lt_of_le (by norm_num) hx
  have habs : |x| = x := abs_of_pos hpos
  obtain ⟨k, hk1, hk2, hk3⟩ :
      ∃ k : ℤ, (2 : ℚ) ^ k ≤ x ∧ x < (2 : ℚ) ^ (k + 1) ∧ 3 ≤ k := by
    refine ⟨Int.log 2 x, ?_, ?_, ?_⟩
    · have := Int.zpow_log_le_self (b := 2) (by norm_num) hpos
      exact_mod_cast this
    · have := Int.lt_zpow_succ_log_self (b := 2) (by norm_num) x
      exact_mod_cast this
    · have h8 : ((2 : ℕ) : ℚ) ^ (3 : ℤ) ≤ x := by
        refine le_trans ?_ hx
        norm_num
      exact (Int.zpow_le_iff_le_log (by norm_num) hpos).1 h8
  rw [roundF32_of_exponent (by rwa [habs]) (by rwa [habs]) (by omega)]
  have hu : (0 : ℚ) < 2 ^ (k - 23) := zpow_pos (by norm_num) _
  have hsplit : (2 : ℚ) ^ k = 8388608 * 2 ^ (k - 23) := by
    have h0 : (2 : ℚ) ^ k = 2 ^ (23 : ℤ) * 2 ^ (k - 23) := by
      rw [← zpow_add₀ (by norm_num : (2 : ℚ) ≠ 0)]
      congr 1
      ring
    rw [h0]
    norm_num
  rcases eq_or_lt_of_le hk3 with h3 | h4
  · subst h3
    have h5 : ((10171187 : ℤ) : ℚ) ≤ x / 2 ^ ((3 : ℤ) - 23) := by
      rw [le_div_iff₀ hu]
      refine le_trans (le_of_eq ?_) hx
      norm_num [zpow_neg]
    have h6 : ((10171187 : ℤ) : ℚ) ≤ (roundHalfEven (x / 2 ^ ((3 : ℤ) - 23)) : ℚ) := by
      exact_mod_cast le_roundHalfEven h5
    calc (10171187 / 2 ^ 20 : ℚ) = ((10171187 : ℤ) : ℚ) * 2 ^ ((3 : ℤ) - 23) := by
          norm_num [zpow_neg]
      _ ≤ _ := mul_le_mul_of_nonneg_right h6 hu.le
  · have h5 : ((8388608 : ℤ) : ℚ) ≤ x / 2 ^ (k - 23) := by
      rw [le_div_iff₀ hu]
      refine le_trans (le_of_eq ?_) hk1
      rw [hsplit]
      norm_num
    have h6 : ((8388608 : ℤ) : ℚ) ≤ (roundHalfEven (x / 2 ^ (k - 23)) : ℚ) := by
      exact_mod_cast le_roundHalfEven h5
    have h7 : (2 : ℚ) ^ (4 : ℤ) ≤ 2 ^ k := zpow_le_zpow_right₀ (by norm_num) (by omega)
    calc (10171187 / 2 ^ 20 : ℚ) ≤ 2 ^ (4 : ℤ) := by norm_num
      _ ≤ 2 ^ k := h7
      _ = ((8388608 : ℤ) : ℚ) * 2 ^ (k - 23) := by rw [hsplit]; norm_num
      _ ≤ _ := mul_le_mul_of_nonneg_right h6 hu.le

/-- The value of `heightFloor`: `10171187 / 2 ^ 20`, about `9.6999998`. -/
theorem heightFloor_eq : heightFloor = 10171187 / 2 ^ 20 := by
  unfold heightFloor
  rw [roundF32_speed]
  have e : (10 : ℚ) - 10066330 / 2 ^ 25 = ((325477990 : ℕ) : ℚ) / 2 ^ 25 := by norm_num
  have hb : roundBits 325477990 = 325477984 := by decide
  rw [e, roundF32_units 325477990 (by norm_num) (by norm_num), hb]
  norm_num

/-- A number not below `heightFloor` is not rounded below it. -/
theorem heightFloor_le_roundF32 {x : ℚ} (hx : heightFloor ≤ x) : heightFloor ≤ roundF32 x := by
  rw [heightFloor_eq] at hx ⊢
  exact roundF32_floor hx

/-- One call of `key_callback`, in `float` arithmetic, keeps the height at or above
`heightFloor`. -/
theorem float_height_step (key scancode action mods : Int) (p : vec3 ℚ)
    (hp : heightFloor ≤ p.y) :
    heightFloor ≤ (key_callback_float roundF32 key scancode action mods p).y := by
  have h10 : heightFloor ≤ 10 - 10066330 / 2 ^ 25 := by
    rw [heightFloor_eq]
    norm_num
  by_cases hact : action = GLFW_PRESS ∨ action = GLFW_REPEAT
  · obtain ⟨a, rfl⟩ : ∃ a : KeyAction, action = a.code := by
      rcases hact with h | h
      · exact ⟨KeyAction.PRESS, h⟩
      · exact ⟨KeyAction.REPEAT, h⟩
    by_cases hW : key = GLFW_KEY_W
    · subst hW
      cases a <;>
      · simp [key_callback_float, KeyAction.code, GLFW_PRESS, GLFW_REPEAT, GLFW_KEY_W,
          GLFW_KEY_S, GLFW_KEY_D, GLFW_KEY_A, GLFW_KEY_SPACE, GLFW_KEY_LEFT_SHIFT,
          GLFW_KEY_R, vec3.add, vec3.scale, vec3.map, roundF32_zero]
        exact heightFloor_le_roundF32 hp
    by_cases hS : key = GLFW_KEY_S
    · subst hS
      cases a <;>
      · simp [key_callback_float, KeyAction.code, GLFW_PRESS, GLFW_REPEAT, GLFW_KEY_W,
          GLFW_KEY_S, GLFW_KEY_D, GLFW_KEY_A, GLFW_KEY_SPACE, GLFW_KEY_LEFT_SHIFT,
          GLFW_KEY_R, vec3.add, vec3.scale, vec3.map, roundF32_zero]
        exact heightFloor_le_roundF32 hp
    by_cases hD : key = GLFW_KEY_D
    · subst hD
      cases a <;>
      · simp [key_callback_float, KeyAction.code, GLFW_PRESS, GLFW_REPEAT, GLFW_KEY_W,
          GLFW_KEY_S, GLFW_KEY_D, GLFW_KEY_A, GLFW_KEY_SPACE, GLFW_KEY_LEFT_SHIFT,
          GLFW_KEY_R, vec3.add, vec3.scale, vec3.map, roundF32_zero]
        exact heightFloor_le_roundF32 hp
    by_cases hA : key = GLFW_KEY_A
    · subst hA
      cases a <;>
      · simp [key_callback_float, KeyAction.code, GLFW_PRESS, GLFW_REPEAT, GLFW_KEY_W,
          GLFW_KEY_S, GLFW_KEY_D, GLFW_KEY_A, GLFW_KEY_SPACE, GLFW_KEY_LEFT_SHIFT,
          GLFW_KEY_R, vec3.add, vec3.scale, vec3.map, roundF32_zero]
        exact heightFloor_le_roundF32 hp
    by_cases hSp : key = GLFW_KEY_SPACE
    · subst hSp
      rw [float_space]
      refine heightFloor_le_roundF32 (le_trans hp ?_)
      norm_num
    by_cases hL : key = GLFW_KEY_LEFT_SHIFT
    · subst hL
      rw [float_left_shift]
      split
      · rename_i hgt
        have hgt2 : 10 < p.y := hgt
        refine heightFloor_le_roundF32 (le_trans h10 ?_)
        linarith
      · exact hp
    by_cases hR : key = GLFW_KEY_R
    · subst hR
      cases a <;>
      · simp [key_callback_float, KeyAction.code, GLFW_PRESS, GLFW_REPEAT, GLFW_KEY_W,
          GLFW_KEY_S, GLFW_KEY_D, GLFW_KEY_A, GLFW_KEY_SPACE, GLFW_KEY_LEFT_SHIFT,
          GLFW_KEY_R]
        rw [heightFloor_eq]
        norm_num
    · have e : key_callback_float roundF32 key scancode a.code mods p = p := by
        cases a <;> simp [key_callback_float, hW, hS, hD, hA, hSp, hL, hR]
      rw [e]
      exact hp
  · have e : key_callback_float roundF32 key scancode action mods p = p := by
      unfold key_callback_float
      rw [if_neg hact]
    rw [e]
    exact hp

/-- The height stays at or above `heightFloor` under every list of key events, in `float`
arithmetic. -/
theorem float_height_run (evs : List KeyEvent) : ∀ p : vec3 ℚ, heightFloor ≤ p.y →
    heightFloor ≤ (runKeys_float roundF32 evs p).y := by
  induction evs with
  | nil => intro p hp; exact hp
  | cons e evs ih =>
    intro p hp
    exact ih _ (float_height_step e.key e.scancode e.action e.mods p hp)

/-- Without rounding, `key_callback_float` computes the position that `key_callback`
assigns. -/
theorem key_callback_float_id {α : Type} [LinearOrderedField α] (glm : GlmLib α)
    (key scancode action mods : Int) (s : ProgState α) :
    key_callback_float id key scancode action mods s.light.position
      = (key_callback glm key scancode action mods s).light.position := by
  unfold key_callback_float key_callback
  split
  · simp [vec3.map, LightParams.recaliberate]
  · rfl

/-! ## The claims -/

/-- C1, disk containment, evaluated on the code where it fails. For the request
`buildOffsetTex(1, 1, 2)` with `rand()` returning `0, RAND_MAX, 0, RAND_MAX` (jitter values
`-0.5, 0.5, -0.5, 0.5`, all inside `[-0.5, 0.5]`) the run writes `a` at index 0, `b` at index
1, `a` at index 2 and `b` at index 3 with `a = b = 1`: both stored offsets `(a, b)` have
Euclidean norm `sqrt 2 > 1` and lie outside the unit disk. -/
theorem C1_disk_containment_fails :
    ∃ a b : ℝ,
      (buildOffsetTex Real.sqrt Real.cos 32767 (altRand 32767) 1 1 2).writes
        = [(0, a), (1, b), (2, a), (3, b)] ∧ a = 1 ∧ b = 1 ∧ 1 < Real.sqrt (a ^ 2 + b ^ 2) := by
  refine ⟨1, 1, writes_altRand, rfl, rfl, ?_⟩
  rw [Real.lt_sqrt (by norm_num)]
  norm_num

/-- C2, polar warp, evaluated on the code where it fails. For the request
`buildOffsetTex(1, 1, 2)` with `rand()` returning `0, RAND_MAX, 0, RAND_MAX`, the normalised
vector is `v = (0, 1, 0, 1)`; the values written at `cell + 1` and `cell + 3` are the
second and fourth component of `warpToDisk`, both equal to `sqrt(v) * cos(2 * PI * u) = 1`,
whereas the sine expressions of the claim, `sqrt(v.y) * sin(2 * pi * v.x)` and
`sqrt(v.w) * sin(2 * pi * v.z)`, are `0` (with `pi` read as the real number or as the macro
`PI`). -/
theorem C2_polar_warp_fails :
    ∃ v : vec4 ℝ, v = normalised 32767 (altRand 32767) 1 2 0 0 ∧
      (buildOffsetTex Real.sqrt Real.cos 32767 (altRand 32767) 1 1 2).writes
        = [(0, (warpToDisk Real.sqrt Real.cos v).x), (1, (warpToDisk Real.sqrt Real.cos v).y),
           (2, (warpToDisk Real.sqrt Real.cos v).z), (3, (warpToDisk Real.sqrt Real.cos v).w)] ∧
      (warpToDisk Real.sqrt Real.cos v).y = 1 ∧
      Real.sqrt v.y * Real.sin (2 * Real.pi * v.x) = 0 ∧
      Real.sqrt v.y * Real.sin (2 * PI * v.x) = 0 ∧
      (warpToDisk Real.sqrt Real.cos v).w = 1 ∧
      Real.sqrt v.w * Real.sin (2 * Real.pi * v.z) = 0 ∧
      Real.sqrt v.w * Real.sin (2 * PI * v.z) = 0 := by
  refine ⟨⟨0, 1, 0, 1⟩, normalised_altRand.symm, ?_⟩
  rw [writes_altRand]
  simp [warpToDisk]

/-- C3, shadow-matrix invariant. Start from any program state whose light is the one
produced by `initMatrices` and deliver any sequence of key events (any key, any action):
in the resulting state `light.S = light.Bias * (light.Projection * light.View)`. The empty
sequence gives the statement for the state produced by `initMatrices` itself. -/
theorem C3_shadow_matrix_invariant {α : Type} [LinearOrderedField α] (glm : GlmLib α)
    (shadowType : Nat) (u : shaderParams) (evs : List KeyEvent) :
    (runKeys glm evs ⟨shadowType, u, LightParams.initMatrices glm⟩).light.S
      = (runKeys glm evs ⟨shadowType, u, LightParams.initMatrices glm⟩).light.Bias
        * ((runKeys glm evs ⟨shadowType, u, LightParams.initMatrices glm⟩).light.Projection
          * (runKeys glm evs ⟨shadowType, u, LightParams.initMatrices glm⟩).light.View) :=
  runKeys_shadowInv glm evs ⟨shadowType, u, LightParams.initMatrices glm⟩ rfl

/-- C4, in-bounds writes. When `samples = samplesU * samplesV` is even, every index written
by a run of `buildOffsetTex` (each is `cell + 0 .. cell + 3` for a tile `0 <= i, j < size`
and an even `k` in `[0, samples)`) satisfies `0 <= index < bufSize = size*size*samples*2`.
The `int` arithmetic is exact (no overflow); the sign conditions of the claim on `size`,
`samplesU`, `samplesV` are not needed. -/
theorem C4_writes_in_bounds {α : Type} [Field α] (sqrtf cosf : α → α) (RAND_MAX : Int)
    (rand : Nat → Int) (size samplesU samplesV : Int)
    (heven : (samplesU * samplesV) % 2 = 0) (idx : Int)
    (hidx : idx ∈ (buildOffsetTex sqrtf cosf RAND_MAX rand size samplesU samplesV).indices) :
    0 ≤ idx ∧ idx < (buildOffsetTex sqrtf cosf RAND_MAX rand size samplesU samplesV).bufSize := by
  rw [buildOffsetTex_indices] at hidx
  obtain ⟨i, j, t, c, hi0, hi, hj0, hj, ht0, ht, hc0, hc, rfl⟩ := mem_indexTrace hidx
  constructor
  · have h1 : 0 ≤ t * size * size := by
      rw [mul_assoc]; exact mul_nonneg ht0 (mul_self_nonneg size)
    have h2 : 0 ≤ j * size := mul_nonneg hj0 (by omega)
    omega
  · have : (buildOffsetTex sqrtf cosf RAND_MAX rand size samplesU samplesV).bufSize
        = size * size * (samplesU * samplesV) * 2 := rfl
    rw [this]
    exact index_lt_bufSize size (samplesU * samplesV) i j t c hi0 hi hj0 hj ht0 (by omega) hc

/-- C4 at the request of `setup()`, `buildOffsetTex(16, 4, 8)`: the last index written,
`16383`, is inside the buffer of length `16384`. -/
theorem C4_writes_in_bounds_witness :
    ((4 : Int) * 8) % 2 = 0 ∧
    (16383 : Int) ∈ (buildOffsetTex Real.sqrt Real.cos 32767 (altRand 32767) 16 4 8).indices ∧
    (0 ≤ (16383 : Int) ∧
      16383 < (buildOffsetTex Real.sqrt Real.cos 32767 (altRand 32767) 16 4 8).bufSize) :=
  have hmem : (16383 : Int) ∈
      (buildOffsetTex Real.sqrt Real.cos 32767 (altRand 32767) 16 4 8).indices := by
    rw [buildOffsetTex_indices]
    exact mem_indexTrace_of 16 (4 * 8) 15 15 15 3
      (by decide) (by decide) (by decide) (by decide) (by decide) (by decide) (by decide)
      (by decide)
  ⟨by decide, hmem,
    C4_writes_in_bounds Real.sqrt Real.cos 32767 (altRand 32767) 16 4 8 (by decide) 16383 hmem⟩

/-- C5 as stated fails: the request `buildOffsetTex(1, 1, 1)` has the odd sample count 1 and
is not rejected. The loop runs and writes the indices `0, 1, 2, 3` although the buffer has
length `bufSize = 2`, so it is false that no write happens at an index `>= bufSize`. -/
theorem C5_odd_samples_overrun_example :
    (buildOffsetTex Real.sqrt Real.cos 32767 (altRand 32767) 1 1 1).indices = [0, 1, 2, 3] ∧
    (buildOffsetTex Real.sqrt Real.cos 32767 (altRand 32767) 1 1 1).bufSize = 2 ∧
    ¬ ∀ idx ∈ (buildOffsetTex Real.sqrt Real.cos 32767 (altRand 32767) 1 1 1).indices,
        idx < (buildOffsetTex Real.sqrt Real.cos 32767 (altRand 32767) 1 1 1).bufSize := by
  have h1 : (buildOffsetTex Real.sqrt Real.cos 32767 (altRand 32767) 1 1 1).indices
      = [0, 1, 2, 3] := by
    rw [buildOffsetTex_indices]; decide
  have h2 : (buildOffsetTex Real.sqrt Real.cos 32767 (altRand 32767) 1 1 1).bufSize = 2 := by
    simp [buildOffsetTex]
  refine ⟨h1, h2, ?_⟩
  rw [h1, h2]
  decide

/-- C5 amended: an odd sample count is not rejected. For `size >= 1` and
`samplesU, samplesV >= 1` with `samplesU * samplesV` odd, `buildOffsetTex` runs the
pairwise-packing loop up to `k = samples - 1`: every index it writes lies in
`[0, bufSize + 2*size*size)`, and the largest of them, `bufSize + 2*size*size - 1`, is
written and is not below the allocated length `bufSize = size*size*samples*2`. An even
sample count is a precondition that the function does not check. -/
theorem C5_odd_samples_not_rejected {α : Type} [Field α] (sqrtf cosf : α → α)
    (RAND_MAX : Int) (rand : Nat → Int) (size samplesU samplesV : Int)
    (hsize : 1 ≤ size) (hU : 1 ≤ samplesU) (hV : 1 ≤ samplesV)
    (hodd : (samplesU * samplesV) % 2 = 1) :
    (buildOffsetTex sqrtf cosf RAND_MAX rand size samplesU samplesV).bufSize
        + 2 * size * size - 1
      ∈ (buildOffsetTex sqrtf cosf RAND_MAX rand size samplesU samplesV).indices ∧
    (buildOffsetTex sqrtf cosf RAND_MAX rand size samplesU samplesV).bufSize
      ≤ (buildOffsetTex sqrtf cosf RAND_MAX rand size samplesU samplesV).bufSize
        + 2 * size * size - 1 ∧
    ∀ idx ∈ (buildOffsetTex sqrtf cosf RAND_MAX rand size samplesU samplesV).indices,
      0 ≤ idx ∧
      idx < (buildOffsetTex sqrtf cosf RAND_MAX rand size samplesU samplesV).bufSize
        + 2 * size * size := by
  have hb : (buildOffsetTex sqrtf cosf RAND_MAX rand size samplesU samplesV).bufSize
      = size * size * (samplesU * samplesV) * 2 := rfl
  have hi : (buildOffsetTex sqrtf cosf RAND_MAX rand size samplesU samplesV).indices
      = indexTrace size (samplesU * samplesV) := buildOffsetTex_indices ..
  have hpos : 0 < samplesU * samplesV := by positivity
  obtain ⟨m, hm⟩ : ∃ m : Int, samplesU * samplesV = 2 * m + 1 :=
    ⟨samplesU * samplesV / 2, by omega⟩
  have hss : 1 ≤ size * size := by nlinarith
  have h2s : 2 * size * size = 2 * (size * size) := by ring
  refine ⟨?_, by omega, ?_⟩
  · rw [hi, hb]
    have := mem_indexTrace_of size (samplesU * samplesV) (size - 1) (size - 1) m 3 (by omega) (by omega) (by omega) (by omega) (by omega)
      (by omega) (by decide) (by decide)
    have e : (m * size * size + (size - 1) * size + (size - 1)) * 4 + 3
        = size * size * (samplesU * samplesV) * 2 + 2 * size * size - 1 := by
      rw [hm]; ring
    rw [← e]; exact this
  · intro idx hidx
    rw [hi] at hidx
    obtain ⟨i, j, t, c, hi0, hi1, hj0, hj, ht0, ht, hc0, hc, rfl⟩ := mem_indexTrace hidx
    constructor
    · have h1 : 0 ≤ t * size * size := by
        rw [mul_assoc]; exact mul_nonneg ht0 (mul_self_nonneg size)
      have h2 : 0 ≤ j * size := mul_nonneg hj0 (by omega)
      omega
    · rw [hb]
      have := index_lt_bufSize size (samplesU * samplesV + 1) i j t c hi0 hi1 hj0 hj ht0
        (by omega) hc
      calc (t * size * size + j * size + i) * 4 + c
          < size * size * (samplesU * samplesV + 1) * 2 := this
        _ = size * size * (samplesU * samplesV) * 2 + 2 * size * size := by ring

/-- C5 amended, at the request `buildOffsetTex(16, 3, 5)` with 15 samples. -/
theorem C5_odd_samples_not_rejected_witness :
    (1 : Int) ≤ 16 ∧ (1 : Int) ≤ 3 ∧ (1 : Int) ≤ 5 ∧ ((3 : Int) * 5) % 2 = 1 ∧
    ((buildOffsetTex Real.sqrt Real.cos 32767 (altRand 32767) 16 3 5).bufSize
        + 2 * 16 * 16 - 1
      ∈ (buildOffsetTex Real.sqrt Real.cos 32767 (altRand 32767) 16 3 5).indices ∧
    (buildOffsetTex Real.sqrt Real.cos 32767 (altRand 32767) 16 3 5).bufSize
      ≤ (buildOffsetTex Real.sqrt Real.cos 32767 (altRand 32767) 16 3 5).bufSize
        + 2 * 16 * 16 - 1 ∧
    ∀ idx ∈ (buildOffsetTex Real.sqrt Real.cos 32767 (altRand 32767) 16 3 5).indices,
      0 ≤ idx ∧
      idx < (buildOffsetTex Real.sqrt Real.cos 32767 (altRand 32767) 16 3 5).bufSize
        + 2 * 16 * 16) :=
  ⟨by decide, by decide, by decide, by decide,
    C5_odd_samples_not_rejected Real.sqrt Real.cos 32767 (altRand 32767) 16 3 5 (by decide)
      (by decide) (by decide) (by decide)⟩

/-- C6, grid coverage, evaluated on the code where it fails: the request of `setup()`,
`buildOffsetTex(16, 4, 8)` (a 4 x 8 grid, 32 samples). In every iteration `k` both stored
offsets are built from the same grid cell `(x1, y1)`: removing the jitter and the centring
`0.5` from `(v.x, v.y)` and from `(v.z, v.w)` gives `(x1, y1)` twice. In the iterations that
the loop runs, `k = 2 * t`, the column `x1` is never `1`; at `k = 0` the cell is `(0, 7)`
for both offsets, while the claim assigns the second offset to the cell of `k + 1 = 1`,
which is `(1, 7)`. So the cell `(1, 7)` is the base of no stored offset and `(0, 7)` is
the base of two. -/
theorem C6_grid_coverage_fails :
    (∀ (k : Int) (j0 j1 j2 j3 : ℚ),
      ((centerAndJitter (x1 4 k) (y1 (4 * 8) 4 k) (x2 4 k) (y2 (4 * 8) 4 k) j0 j1 j2 j3).x
          - j0 - 1 / 2,
        (centerAndJitter (x1 4 k) (y1 (4 * 8) 4 k) (x2 4 k) (y2 (4 * 8) 4 k) j0 j1 j2 j3).y
          - j1 - 1 / 2) = ((x1 4 k : ℚ), (y1 (4 * 8) 4 k : ℚ)) ∧
      ((centerAndJitter (x1 4 k) (y1 (4 * 8) 4 k) (x2 4 k) (y2 (4 * 8) 4 k) j0 j1 j2 j3).z
          - j2 - 1 / 2,
        (centerAndJitter (x1 4 k) (y1 (4 * 8) 4 k) (x2 4 k) (y2 (4 * 8) 4 k) j0 j1 j2 j3).w
          - j3 - 1 / 2) = ((x1 4 k : ℚ), (y1 (4 * 8) 4 k : ℚ))) ∧
    (∀ t : Nat, x1 4 (2 * (t : Int)) ≠ 1) ∧
    (x1 4 0, y1 (4 * 8) 4 0) = (0, 7) ∧
    (Int.tmod (0 + 1) 4, Int.tdiv (4 * 8 - 1 - (0 + 1)) 4) = (1, 7) := by
  refine ⟨?_, ?_, by decide, by decide⟩
  · intro k j0 j1 j2 j3
    refine ⟨?_, ?_⟩
    · simp only [centerAndJitter, Prod.mk.injEq]
      constructor <;> ring
    · simp only [centerAndJitter, Prod.mk.injEq]
      constructor <;> ring
  · intro t
    have hk : (0 : Int) ≤ 2 * (t : Int) := by omega
    unfold x1
    rw [Int.tmod_eq_emod hk (by decide)]
    omega

/-- C7, second grid coordinate, evaluated on the code where it fails: with `samplesU = 4`
(the value passed by `setup()`) and `k = 0` the code computes `x2 = (0 + 1) & 4 = 0`,
whereas `(0 + 1) mod 4 = 1`. The other half of the claim holds for all inputs:
`y2 = (samples - 1 - (k + 1)) / samplesU`. -/
theorem C7_second_x_coordinate_fails :
    x2 4 0 = 0 ∧ Int.tmod (0 + 1) 4 = 1 ∧
    ∀ samples samplesU k : Int, y2 samples samplesU k = Int.tdiv (samples - 1 - (k + 1)) samplesU := by
  refine ⟨by decide, by decide, ?_⟩
  intro samples samplesU k
  unfold y2
  congr 1
  ring

/-- C8 as stated fails: for the request of `setup()`, `samplesU = 4`, `samplesV = 8`, at
`k = 0` (even, in `[0, 32)`) and with `rand()` returning `RAND_MAX = 32767` (so the jitter
is `0.5`), the normalised coordinate `v.y` is exactly `1`, which is not in `[0, 1)`. -/
theorem C8_normalised_range_fails :
    (normalised (α := ℚ) 32767 (fun _ => 32767) 4 8 0 0).y = 1 ∧
    ¬ ((normalised (α := ℚ) 32767 (fun _ => 32767) 4 8 0 0).y < 1) := by
  have h : (normalised (α := ℚ) 32767 (fun _ => 32767) 4 8 0 0).y = 1 := by
    have h2 : y1 (4 * 8) 4 0 = 7 := by decide
    simp only [normalised, scaleToUnit, centerAndJitter, jitter, h2]
    norm_num
  rw [h]
  exact ⟨rfl, lt_irrefl 1⟩

/-- C8 amended: for `samplesU, samplesV >= 1`, every `k` in `[0, samplesU * samplesV)` and
all `rand()` results in `[0, RAND_MAX]`, the four normalised coordinates `v.x, v.y, v.z,
v.w` lie in the closed interval `[0, 1]`. Exact arithmetic in any ordered field. -/
theorem C8_normalised_closed_range {α : Type} [LinearOrderedField α] (RAND_MAX : Int)
    (rand : Nat → Int) (samplesU samplesV k : Int) (calls : Nat) (hRM : 0 < RAND_MAX)
    (hU : 1 ≤ samplesU) (hV : 1 ≤ samplesV) (hk0 : 0 ≤ k) (hk : k < samplesU * samplesV)
    (hr : ∀ n, 0 ≤ rand n ∧ rand n ≤ RAND_MAX) (v : vec4 α)
    (hv : v = normalised RAND_MAX rand samplesU samplesV k calls) :
    (0 ≤ v.x ∧ v.x ≤ 1) ∧ (0 ≤ v.y ∧ v.y ≤ 1) ∧ (0 ≤ v.z ∧ v.z ≤ 1) ∧ (0 ≤ v.w ∧ v.w ≤ 1) := by
  subst hv
  obtain ⟨hx0, hx1⟩ := x1_bounds hU hk0
  obtain ⟨hy0, hy1⟩ := y1_bounds hU hV hk0 hk
  have hj : ∀ n, -(1 / 2 : α) ≤ jitter RAND_MAX (rand n) ∧
      jitter RAND_MAX (rand n) ≤ (1 / 2 : α) :=
    fun n => jitter_bounds hRM (hr n).1 (hr n).2
  have bx := unit_bounds (α := α) hx0 hx1 (hj calls).1 (hj calls).2
  have by1 := unit_bounds (α := α) hy0 hy1 (hj (calls + 1)).1 (hj (calls + 1)).2
  have bz := unit_bounds (α := α) hx0 hx1 (hj (calls + 2)).1 (hj (calls + 2)).2
  have bw := unit_bounds (α := α) hy0 hy1 (hj (calls + 3)).1 (hj (calls + 3)).2
  exact ⟨bx, by1, bz, bw⟩

/-- C8 amended, at the first iteration of `buildOffsetTex(16, 4, 8)` with `rand()` returning
`0, RAND_MAX, 0, RAND_MAX`. -/
theorem C8_normalised_closed_range_witness :
    (0 : Int) < 32767 ∧ (1 : Int) ≤ 4 ∧ (1 : Int) ≤ 8 ∧ (0 : Int) ≤ 0 ∧ (0 : Int) < 4 * 8 ∧
    (∀ n : Nat, (0 : Int) ≤ altRand 32767 n ∧ altRand 32767 n ≤ 32767) ∧
    (((0 : ℚ) ≤ (normalised 32767 (altRand 32767) 4 8 0 0).x ∧
        (normalised 32767 (altRand 32767) 4 8 0 0).x ≤ (1 : ℚ)) ∧
      ((0 : ℚ) ≤ (normalised 32767 (altRand 32767) 4 8 0 0).y ∧
        (normalised 32767 (altRand 32767) 4 8 0 0).y ≤ (1 : ℚ)) ∧
      ((0 : ℚ) ≤ (normalised 32767 (altRand 32767) 4 8 0 0).z ∧
        (normalised 32767 (altRand 32767) 4 8 0 0).z ≤ (1 : ℚ)) ∧
      ((0 : ℚ) ≤ (normalised 32767 (altRand 32767) 4 8 0 0).w ∧
        (normalised 32767 (altRand 32767) 4 8 0 0).w ≤ (1 : ℚ))) :=
  have hr : ∀ n : Nat, (0 : Int) ≤ altRand 32767 n ∧ altRand 32767 n ≤ 32767 := by
    intro n; unfold altRand; split <;> decide
  ⟨by decide, by decide, by decide, by decide, by decide, hr,
    C8_normalised_closed_range 32767 (altRand 32767) 4 8 0 0 (by decide) (by decide)
      (by decide) (by decide) (by decide) hr (normalised 32767 (altRand 32767) 4 8 0 0) rfl⟩

/-- C9, shape determinism. Two runs of `buildOffsetTex` on the same `(size, samplesU,
samplesV)` with any two streams of `rand()` results (and any two values of `RAND_MAX`)
allocate the same buffer length, write the same sequence of indices in the same order, and
upload a texture of the same dimensions `size x size x (samples / 2)`. -/
theorem C9_shape_determinism {α : Type} [Field α] (sqrtf cosf : α → α)
    (RAND_MAX RAND_MAX2 : Int) (rand rand2 : Nat → Int) (size samplesU samplesV : Int) :
    (buildOffsetTex sqrtf cosf RAND_MAX rand size samplesU samplesV).bufSize
      = (buildOffsetTex sqrtf cosf RAND_MAX2 rand2 size samplesU samplesV).bufSize ∧
    (buildOffsetTex sqrtf cosf RAND_MAX rand size samplesU samplesV).indices
      = (buildOffsetTex sqrtf cosf RAND_MAX2 rand2 size samplesU samplesV).indices ∧
    ((buildOffsetTex sqrtf cosf RAND_MAX rand size samplesU samplesV).width,
      (buildOffsetTex sqrtf cosf RAND_MAX rand size samplesU samplesV).height,
      (buildOffsetTex sqrtf cosf RAND_MAX rand size samplesU samplesV).depth)
      = (size, size, Int.tdiv (samplesU * samplesV) 2) ∧
    ((buildOffsetTex sqrtf cosf RAND_MAX2 rand2 size samplesU samplesV).width,
      (buildOffsetTex sqrtf cosf RAND_MAX2 rand2 size samplesU samplesV).height,
      (buildOffsetTex sqrtf cosf RAND_MAX2 rand2 size samplesU samplesV).depth)
      = (size, size, Int.tdiv (samplesU * samplesV) 2) := by
  refine ⟨rfl, ?_, rfl, rfl⟩
  rw [buildOffsetTex_indices, buildOffsetTex_indices]

/-- C10, unrestricted mode transitions. From every program state and for every mode `m`,
one call of `key_callback` with the key of `m` and the action `GLFW_PRESS`, or the action
`GLFW_REPEAT`, gives a state whose `shadowType` is the subroutine handle of `m`, whatever
`shadowType` was before. -/
theorem C10_mode_transitions {α : Type} [LinearOrderedField α] (glm : GlmLib α)
    (s : ProgState α) (m : ShadowMode) (scancode mods : Int) :
    (key_callback glm m.key scancode GLFW_PRESS mods s).shadowType = m.handle s.uniforms ∧
    (key_callback glm m.key scancode GLFW_REPEAT mods s).shadowType = m.handle s.uniforms := by
  cases m <;>
    simp [key_callback, ShadowMode.key, ShadowMode.handle, GLFW_PRESS, GLFW_REPEAT, GLFW_KEY_1,
      GLFW_KEY_2, GLFW_KEY_3]

/-- C11, mode switching is idempotent on the host state. For every state `s` and all modes
`a`, `b`, delivering the key of `a`, then the key of `b`, then the key of `a` (each with the
action PRESS or REPEAT, any scancode and modifiers) gives exactly the same program state,
`shadowType`, `uniforms` and every field of `light`, as delivering the key of `a` once from
`s`. With `a` the mode of key 1 and `b` the mode of key 2 this is `1 -> 2 -> 1`. -/
theorem C11_mode_switch_idempotent {α : Type} [LinearOrderedField α] (glm : GlmLib α)
    (s : ProgState α) (a b : ShadowMode) (p1 p2 p3 p0 : KeyAction)
    (sc1 sc2 sc3 sc0 m1 m2 m3 m0 : Int) :
    key_callback glm a.key sc3 p3.code m3
        (key_callback glm b.key sc2 p2.code m2 (key_callback glm a.key sc1 p1.code m1 s))
      = key_callback glm a.key sc0 p0.code m0 s := by
  rw [mode_key_callback glm s a p1, mode_key_callback glm _ b p2,
    mode_key_callback glm _ a p3, mode_key_callback glm s a p0]
  simp only [recaliberate_idem]

/-- C12 as stated fails: it is not true that for every state the key R with the action
PRESS sets `light.position` to the origin `(0, 0, 0)`; from the state built by `setup` the
position after the key is `(1/10, 10, 0)`. -/
theorem C12_reset_to_origin_fails :
    ¬ ∀ (glm : GlmLib ℚ) (s : ProgState ℚ),
        (key_callback glm GLFW_KEY_R 0 GLFW_PRESS 0 s).light.position = ⟨0, 0, 0⟩ := by
  intro h
  have h1 := h ⟨fun _ _ _ => 0, fun _ _ _ _ => 0⟩
    (setup ⟨fun _ _ _ => 0, fun _ _ _ _ => 0⟩ ⟨0, 0, 0, 0, 0, 0, 0, 0, 0, 0, 0, 0⟩)
  simp [key_callback, GLFW_PRESS, GLFW_REPEAT, GLFW_KEY_W, GLFW_KEY_S, GLFW_KEY_D,
    GLFW_KEY_A, GLFW_KEY_SPACE, GLFW_KEY_LEFT_SHIFT, GLFW_KEY_R, LightParams.recaliberate]
    at h1

/-- C12 amended: for every state, `key_callback` with the key R and the action PRESS or
REPEAT sets `light.position` to `(0.1, 10, 0)`, the point at the initial height 10 that is
`0.1` off the vertical axis through the scene origin. -/
theorem C12_reset_position {α : Type} [LinearOrderedField α] (glm : GlmLib α)
    (s : ProgState α) (p : KeyAction) (scancode mods : Int) :
    (key_callback glm GLFW_KEY_R scancode p.code mods s).light.position
      = ⟨1 / 10, 10, 0⟩ := by
  cases p <;>
    simp [key_callback, KeyAction.code, GLFW_PRESS, GLFW_REPEAT, GLFW_KEY_W, GLFW_KEY_S,
      GLFW_KEY_D, GLFW_KEY_A, GLFW_KEY_SPACE, GLFW_KEY_LEFT_SHIFT, GLFW_KEY_R,
      LightParams.recaliberate]

/-- C13, readable files, at two inputs. A readable file of `2^32` bytes is returned as the
empty string, whatever the text mode: the size passes through the cast
`(unsigned int)file.tellg()`, so the string is resized to `2^32 mod 2^32 = 0` characters,
while the claim (and the comment on that line of the source) gives it the size of the
file. Under a text mode that reads the line end `13, 10` as one character, the file with
the three bytes `35, 13, 10` is returned as `35, 10, 0`: the length is the file size but
the content is not the bytes of the file. -/
theorem C13_readShader_large_file :
    (∀ textMode : Bytes → Bytes,
      readShader textMode (fun _ => some (List.replicate (2 ^ 32) 0)) "VertexShader.glsl"
        = ([], [])) ∧
    (List.replicate (2 ^ 32) 0 : Bytes).length = 2 ^ 32 ∧
    readShader crlfText (fun _ => some [35, 13, 10]) "VertexShader.glsl"
      = ([], [35, 10, 0]) := by
  refine ⟨?_, List.length_replicate _ _, by decide⟩
  intro textMode
  unfold readShader
  simp only [List.length_replicate, Nat.mod_self, List.replicate_zero, List.length_nil,
    List.take_zero, List.drop_nil, List.append_nil]

/-- C14, shadow factor range, on the filtering policy modelled from the specification. For
every fragment, every shadow map and each of the three modes the shadow factor lies in
`[0, 1]`; HardShadow returns `0` or `1`; PCF returns the sum of its 16 comparisons divided
by 16, each comparison being `0` or `1`. -/
theorem C14_shadow_factor_range {α : Type} [LinearOrderedField α] (mode : ShadowMode)
    (nbhd : Fin 4 → Fin 4 → α × α) (outer inner : List (α × α)) (map : ShadowMap α)
    (f : Fragment α) :
    (0 ≤ shadowFactor mode nbhd outer inner map f ∧
      shadowFactor mode nbhd outer inner map f ≤ 1) ∧
    (shadowFactor ShadowMode.HardShadow nbhd outer inner map f = 0 ∨
      shadowFactor ShadowMode.HardShadow nbhd outer inner map f = 1) ∧
    (shadowFactor ShadowMode.PCF nbhd outer inner map f
        = (PCFcomparisons nbhd map f).sum / 16 ∧
      (PCFcomparisons nbhd map f).length = 16 ∧
      ∀ c ∈ PCFcomparisons nbhd map f, c = 0 ∨ c = 1) := by
  obtain ⟨hlen, hbin⟩ := PCFcomparisons_binary nbhd map f
  refine ⟨?_, depthCompare_binary map f (0, 0), ?_, hlen, hbin⟩
  · cases mode
    · show 0 ≤ depthCompare map f (0, 0) ∧ depthCompare map f (0, 0) ≤ 1
      rcases depthCompare_binary map f (0, 0) with h | h <;> rw [h] <;> simp
    · refine average_bounds _ (fun c hc => ?_)
      rcases hbin c hc with h | h <;> rw [h] <;> simp
    · simp only [shadowFactor, randomSamplingShadow]
      split
      · simp
      · split
        · simp
        · refine average_bounds _ (fun c hc => ?_)
          rcases List.mem_append.1 hc with h | h
          · exact comparisons_unit map f outer c h
          · exact comparisons_unit map f inner c h
  · simp [shadowFactor, PCFshadow, average, hlen]

/-- C15, the bias matrix maps the clip range to the texture range. With `light.Bias` as built
by `initMatrices`, `Bias * (x, y, z, 1) = ((x+1)/2, (y+1)/2, (z+1)/2, 1)` for all `x y z`,
and each of the first three components of the product lies in `[0, 1]` exactly when the
corresponding coordinate lies in `[-1, 1]`. -/
theorem C15_bias_maps_clip_to_texture {α : Type} [LinearOrderedField α] (glm : GlmLib α)
    (x y z : α) :
    (LightParams.initMatrices glm).Bias.mulVec ![x, y, z, 1]
      = ![(x + 1) / 2, (y + 1) / 2, (z + 1) / 2, 1] ∧
    ((0 ≤ (LightParams.initMatrices glm).Bias.mulVec ![x, y, z, 1] 0 ∧
        (LightParams.initMatrices glm).Bias.mulVec ![x, y, z, 1] 0 ≤ 1) ↔ (-1 ≤ x ∧ x ≤ 1)) ∧
    ((0 ≤ (LightParams.initMatrices glm).Bias.mulVec ![x, y, z, 1] 1 ∧
        (LightParams.initMatrices glm).Bias.mulVec ![x, y, z, 1] 1 ≤ 1) ↔ (-1 ≤ y ∧ y ≤ 1)) ∧
    ((0 ≤ (LightParams.initMatrices glm).Bias.mulVec ![x, y, z, 1] 2 ∧
        (LightParams.initMatrices glm).Bias.mulVec ![x, y, z, 1] 2 ≤ 1) ↔ (-1 ≤ z ∧ z ≤ 1)) := by
  have hB : (LightParams.initMatrices glm).Bias = biasMatrix := rfl
  rw [hB, biasMatrix_mulVec]
  exact ⟨rfl, half_range x, half_range y, half_range z⟩

/-- C16, the second channel reuses the grid cell of the first. Replacing `x2` and `y2` by
arbitrary integers in every iteration (`x2f i j k`, `y2f i j k`) leaves the whole result of
`buildOffsetTex` unchanged: the same writes with the same values, the same buffer length
and dimensions. The `(z, w)` channel is the same function of the grid cell `(x1, y1)` as the
`(x, y)` channel and differs only in the jitter draws: exchanging the draws `(j0, j1)` with
`(j2, j3)` exchanges the two channels, before the scaling and in the stored values. -/
theorem C16_second_channel_reuses_cell {α : Type} [Field α] (x2f y2f : Int → Int → Int → Int)
    (sqrtf cosf : α → α) (RAND_MAX : Int) (rand : Nat → Int)
    (size samplesU samplesV : Int) (a b a2 b2 : Int) (j0 j1 j2 j3 : α) :
    buildOffsetTexWith x2f y2f sqrtf cosf RAND_MAX rand size samplesU samplesV
      = buildOffsetTex sqrtf cosf RAND_MAX rand size samplesU samplesV ∧
    ((centerAndJitter a b a2 b2 j0 j1 j2 j3).z = (centerAndJitter a b a2 b2 j2 j3 j0 j1).x ∧
      (centerAndJitter a b a2 b2 j0 j1 j2 j3).w = (centerAndJitter a b a2 b2 j2 j3 j0 j1).y) ∧
    ((warpToDisk sqrtf cosf (scaleToUnit samplesU samplesV
        (centerAndJitter a b a2 b2 j0 j1 j2 j3))).z
      = (warpToDisk sqrtf cosf (scaleToUnit samplesU samplesV
        (centerAndJitter a b a2 b2 j2 j3 j0 j1))).x ∧
     (warpToDisk sqrtf cosf (scaleToUnit samplesU samplesV
        (centerAndJitter a b a2 b2 j0 j1 j2 j3))).w
      = (warpToDisk sqrtf cosf (scaleToUnit samplesU samplesV
        (centerAndJitter a b a2 b2 j2 j3 j0 j1))).y) := by
  refine ⟨?_, ⟨rfl, rfl⟩, ⟨rfl, rfl⟩⟩
  simp only [buildOffsetTexWith, buildOffsetTex, offsetLoops, innerBodyWith_eq]

/-- C17, every buffer slot is written exactly once. For `size >= 0` and an even
`samples = samplesU * samplesV`, the indices written by a run of `buildOffsetTex` have no
repetition, an index is written if and only if it lies in `[0, bufSize)` with
`bufSize = size*size*samples*2`, and so each index is written once if it is in that range
and never otherwise. The conditions `size >= 1`, `samplesU, samplesV >= 1` of the claim are
not needed beyond `size >= 0`. -/
theorem C17_every_slot_written_once {α : Type} [Field α] (sqrtf cosf : α → α)
    (RAND_MAX : Int) (rand : Nat → Int) (size samplesU samplesV : Int) (hsize : 0 ≤ size)
    (heven : (samplesU * samplesV) % 2 = 0) :
    (buildOffsetTex sqrtf cosf RAND_MAX rand size samplesU samplesV).indices.Nodup ∧
    (∀ idx : Int,
      idx ∈ (buildOffsetTex sqrtf cosf RAND_MAX rand size samplesU samplesV).indices ↔
        (0 ≤ idx ∧
          idx < (buildOffsetTex sqrtf cosf RAND_MAX rand size samplesU samplesV).bufSize)) ∧
    (∀ idx : Int,
      (buildOffsetTex sqrtf cosf RAND_MAX rand size samplesU samplesV).indices.count idx
        = if 0 ≤ idx ∧
            idx < (buildOffsetTex sqrtf cosf RAND_MAX rand size samplesU samplesV).bufSize
          then 1 else 0) := by
  have hb : (buildOffsetTex sqrtf cosf RAND_MAX rand size samplesU samplesV).bufSize
      = size * size * (samplesU * samplesV) * 2 := rfl
  rw [buildOffsetTex_indices, hb]
  have hnd := indexTrace_nodup size (samplesU * samplesV)
  have hmem : ∀ idx : Int, idx ∈ indexTrace size (samplesU * samplesV) ↔
      (0 ≤ idx ∧ idx < size * size * (samplesU * samplesV) * 2) := fun idx =>
    ⟨indexTrace_bounds heven, fun h => mem_indexTrace_of_lt hsize heven h.1 h.2⟩
  refine ⟨hnd, hmem, ?_⟩
  intro idx
  by_cases h : 0 ≤ idx ∧ idx < size * size * (samplesU * samplesV) * 2
  · rw [if_pos h]
    exact List.count_eq_one_of_mem hnd ((hmem idx).2 h)
  · rw [if_neg h]
    exact List.count_eq_zero_of_not_mem (fun hm => h ((hmem idx).1 hm))

/-- C17 at the request of `setup()`, `buildOffsetTex(16, 4, 8)`. -/
theorem C17_every_slot_written_once_witness :
    (0 : Int) ≤ 16 ∧ ((4 : Int) * 8) % 2 = 0 ∧
    ((buildOffsetTex Real.sqrt Real.cos 32767 (altRand 32767) 16 4 8).indices.Nodup ∧
    (∀ idx : Int,
      idx ∈ (buildOffsetTex Real.sqrt Real.cos 32767 (altRand 32767) 16 4 8).indices ↔
        (0 ≤ idx ∧
          idx < (buildOffsetTex Real.sqrt Real.cos 32767 (altRand 32767) 16 4 8).bufSize)) ∧
    (∀ idx : Int,
      (buildOffsetTex Real.sqrt Real.cos 32767 (altRand 32767) 16 4 8).indices.count idx
        = if 0 ≤ idx ∧
            idx < (buildOffsetTex Real.sqrt Real.cos 32767 (altRand 32767) 16 4 8).bufSize
          then 1 else 0)) :=
  ⟨by decide, by decide,
    C17_every_slot_written_once Real.sqrt Real.cos 32767 (altRand 32767) 16 4 8 (by decide)
      (by decide)⟩

/-- C18, the two render passes use the same light projection. In every state reached from
the light of `initMatrices` by key events, and for each drawn object (plane, sphere1,
sphere2, with the origins assigned during `setup()`), the shadow matrix uploaded by
`secondDrawPass`, `light.S * translate(origin)`, equals `light.Bias` times the matrix `MVP`
uploaded for that object by `firstDrawPass`, `(light.Projection * light.View) *
translate(origin)`. Here `translate` is any function, in particular `glm::translate` applied
to the identity. -/
theorem C18_passes_share_projection {α : Type} [LinearOrderedField α] (glm : GlmLib α)
    (translate : vec3 α → mat4 α) (shadowType : Nat) (u : shaderParams)
    (evs : List KeyEvent) :
    (secondDrawPass translate setupOrigins
        (runKeys glm evs ⟨shadowType, u, LightParams.initMatrices glm⟩).light).plane
      = (runKeys glm evs ⟨shadowType, u, LightParams.initMatrices glm⟩).light.Bias
        * (firstDrawPass translate setupOrigins
            (runKeys glm evs ⟨shadowType, u, LightParams.initMatrices glm⟩).light).plane ∧
    (secondDrawPass translate setupOrigins
        (runKeys glm evs ⟨shadowType, u, LightParams.initMatrices glm⟩).light).sphere1
      = (runKeys glm evs ⟨shadowType, u, LightParams.initMatrices glm⟩).light.Bias
        * (firstDrawPass translate setupOrigins
            (runKeys glm evs ⟨shadowType, u, LightParams.initMatrices glm⟩).light).sphere1 ∧
    (secondDrawPass translate setupOrigins
        (runKeys glm evs ⟨shadowType, u, LightParams.initMatrices glm⟩).light).sphere2
      = (runKeys glm evs ⟨shadowType, u, LightParams.initMatrices glm⟩).light.Bias
        * (firstDrawPass translate setupOrigins
            (runKeys glm evs ⟨shadowType, u, LightParams.initMatrices glm⟩).light).sphere2 := by
  have h : (runKeys glm evs ⟨shadowType, u, LightParams.initMatrices glm⟩).light.shadowInv :=
    runKeys_shadowInv glm evs ⟨shadowType, u, LightParams.initMatrices glm⟩ rfl
  unfold LightParams.shadowInv at h
  simp only [secondDrawPass, firstDrawPass, h, Matrix.mul_assoc, and_self]

/-- C19, the light never sits on the axis where the view matrix degenerates. With
`speed = 3/10` and the reset value `x = 1/10` exact, in every state reached from the light of
`initMatrices` by key events `10 * light.position.x = 3 n + 1` for an integer `n`, so
`light.position.x` is not zero, and the cross product of `position - forward` with the up
vector `(0, 1, 0)` of `recaliberate` is not the zero vector: the two are not parallel. -/
theorem C19_light_off_axis {α : Type} [LinearOrderedField α] (glm : GlmLib α)
    (shadowType : Nat) (u : shaderParams) (evs : List KeyEvent) :
    (∃ n : Int,
      10 * (runKeys glm evs ⟨shadowType, u, LightParams.initMatrices glm⟩).light.position.x
        = 3 * (n : α) + 1) ∧
    (runKeys glm evs ⟨shadowType, u, LightParams.initMatrices glm⟩).light.position.x ≠ 0 ∧
    vec3.cross
      ((runKeys glm evs ⟨shadowType, u, LightParams.initMatrices glm⟩).light.position.sub
        (runKeys glm evs ⟨shadowType, u, LightParams.initMatrices glm⟩).light.forward)
      ⟨0, 1, 0⟩ ≠ ⟨0, 0, 0⟩ := by
  obtain ⟨⟨n, hn⟩, hf⟩ := runKeys_x_forward glm shadowType u evs
  have hx : (runKeys glm evs ⟨shadowType, u, LightParams.initMatrices glm⟩).light.position.x
      ≠ 0 := by
    intro h0
    rw [h0, mul_zero] at hn
    exact three_mul_add_one_ne_zero n hn.symm
  refine ⟨⟨n, hn⟩, hx, ?_⟩
  rw [hf]
  intro hc
  have hz := congrArg vec3.z hc
  simp [vec3.cross, vec3.sub] at hz
  exact hx hz

/-- C20 as stated fails for the `float` arithmetic of the program (`speed` is `0.3f`, every
sum is rounded). From the position `(1, 10, 0)` set by `initMatrices`, 3381 presses of
SPACE followed by 3382 presses of LEFT_SHIFT leave `light.position.y` at
`10171251 / 2 ^ 20`, about `9.7000608`, which is below `10`: the last press found the
height at `10 + 64 / 2 ^ 20`, above the threshold. And after one press of SPACE the height
is `10800333 / 2 ^ 20`, about `10.3000002`, which is `10 + 3 n / 10` for no natural `n`. -/
theorem C20_height_floor_fails :
    (runKeys_float roundF32
        (List.replicate 3381 ⟨GLFW_KEY_SPACE, 0, GLFW_PRESS, 0⟩
          ++ List.replicate 3382 ⟨GLFW_KEY_LEFT_SHIFT, 0, GLFW_PRESS, 0⟩) ⟨1, 10, 0⟩).y
      = 10171251 / 2 ^ 20 ∧
    (10171251 / 2 ^ 20 : ℚ) < 10 ∧
    (runKeys_float roundF32 [⟨GLFW_KEY_SPACE, 0, GLFW_PRESS, 0⟩] ⟨1, 10, 0⟩).y
      = 10800333 / 2 ^ 20 ∧
    (∀ n : ℕ, (10800333 / 2 ^ 20 : ℚ) ≠ 10 + 3 * (n : ℚ) / 10) ∧
    (∀ glm : GlmLib ℚ, (LightParams.initMatrices glm).position = ⟨1, 10, 0⟩) := by
  have h1 := climb_spec 3381 335544320 34368819200 ⟨1, 10, 0⟩ climb_3381 (by norm_num)
  have h2 := descend_spec 3382 34368819200 325480032 _ descend_3382 h1
  have e : runKeys_float roundF32
      (List.replicate 3381 ⟨GLFW_KEY_SPACE, 0, GLFW_PRESS, 0⟩
        ++ List.replicate 3382 ⟨GLFW_KEY_LEFT_SHIFT, 0, GLFW_PRESS, 0⟩) ⟨1, 10, 0⟩
      = runKeys_float roundF32 (List.replicate 3382 ⟨GLFW_KEY_LEFT_SHIFT, 0, GLFW_PRESS, 0⟩)
        (runKeys_float roundF32 (List.replicate 3381 ⟨GLFW_KEY_SPACE, 0, GLFW_PRESS, 0⟩)
          ⟨1, 10, 0⟩) := by
    unfold runKeys_float
    exact List.foldl_append _ _ _ _
  have h3 := climb_spec 1 335544320 345610656 ⟨1, 10, 0⟩ (by decide) (by norm_num)
  refine ⟨?_, by norm_num, ?_, ?_, fun glm => rfl⟩
  · rw [e, h2]
    norm_num
  · rw [show ([⟨GLFW_KEY_SPACE, 0, GLFW_PRESS, 0⟩] : List KeyEvent)
        = List.replicate 1 ⟨GLFW_KEY_SPACE, 0, GLFW_PRESS, 0⟩ from rfl, h3]
    norm_num
  · intro n hn
    have h4 : (3145730 : ℚ) = 3145728 * (n : ℚ) := by
      field_simp at hn
      linarith
    have h5 : (3145730 : ℕ) = 3145728 * n := by exact_mod_cast h4
    omega

/-- C20 amended: height floor of the light in the `float` arithmetic of the program, where
`speed` is `0.3f = 10066330 / 2 ^ 25` and every sum is rounded to the nearest `float`. In
every state reached from the position set by `initMatrices` by key events,
`light.position.y` is at least `heightFloor`, the `float` nearest to `10 - 0.3f`, which is
`10171187 / 2 ^ 20` (about `9.6999998`). For every position, the key LEFT_SHIFT (PRESS or
REPEAT) lowers `y` to the rounded difference `y - 0.3f` when `y > 10` (`x` and `z` become
the rounded sums `x + 0` and `z + 0`), and leaves the position as it is otherwise, in
particular when `y = 10`. -/
theorem C20_height_floor_float (glm : GlmLib ℚ) (evs : List KeyEvent) (p : vec3 ℚ)
    (a : KeyAction) (scancode mods : Int) :
    heightFloor ≤ (runKeys_float roundF32 evs (LightParams.initMatrices glm).position).y ∧
    heightFloor = 10171187 / 2 ^ 20 ∧
    roundF32 speed = 10066330 / 2 ^ 25 ∧
    key_callback_float roundF32 GLFW_KEY_LEFT_SHIFT scancode a.code mods p
      = (if p.y > 10 then
          ⟨roundF32 p.x, roundF32 (p.y - roundF32 speed), roundF32 p.z⟩
        else p) := by
  refine ⟨float_height_run evs _ ?_, heightFloor_eq, roundF32_speed, ?_⟩
  · rw [heightFloor_eq]
    show (10171187 / 2 ^ 20 : ℚ) ≤ 10
    norm_num
  · rw [float_left_shift, roundF32_speed]

/-- C21, the first key press changes the light view without moving the light. Let `L0` be
the light produced by `initMatrices`, with glm `lookAt` and `perspective` over the reals
(`tanHalf 45`, the tangent of half the field of view, is assumed non-zero). Then `L0` has
position `(1, 10, 0)` and forward `(0, 0, 0)`; `recaliberate` keeps position and forward and
yields a `View` different from that of `L0` and an `S` different from that of `L0`. After
`setup`, `shadowType` is the HardShadow handle; the key 1 (PRESS or REPEAT) keeps
`shadowType`, replaces the light by `recaliberate L0`, and so gives a state different from
the state after `setup`. -/
theorem C21_first_key_press_changes_view (tanHalf : ℝ → ℝ) (ht : tanHalf 45 ≠ 0)
    (u : shaderParams) (p : KeyAction) (scancode mods : Int) :
    ((LightParams.initMatrices (glmLib Real.sqrt tanHalf)).position = ⟨1, 10, 0⟩ ∧
      (LightParams.initMatrices (glmLib Real.sqrt tanHalf)).forward = ⟨0, 0, 0⟩) ∧
    ((LightParams.recaliberate (glmLib Real.sqrt tanHalf)
        (LightParams.initMatrices (glmLib Real.sqrt tanHalf))).position
        = (LightParams.initMatrices (glmLib Real.sqrt tanHalf)).position ∧
      (LightParams.recaliberate (glmLib Real.sqrt tanHalf)
        (LightParams.initMatrices (glmLib Real.sqrt tanHalf))).forward
        = (LightParams.initMatrices (glmLib Real.sqrt tanHalf)).forward) ∧
    (LightParams.recaliberate (glmLib Real.sqrt tanHalf)
        (LightParams.initMatrices (glmLib Real.sqrt tanHalf))).View
      ≠ (LightParams.initMatrices (glmLib Real.sqrt tanHalf)).View ∧
    (LightParams.recaliberate (glmLib Real.sqrt tanHalf)
        (LightParams.initMatrices (glmLib Real.sqrt tanHalf))).S
      ≠ (LightParams.initMatrices (glmLib Real.sqrt tanHalf)).S ∧
    (setup (glmLib Real.sqrt tanHalf) u).shadowType = u.sub_func_basicShadow ∧
    (key_callback (glmLib Real.sqrt tanHalf) GLFW_KEY_1 scancode p.code mods
        (setup (glmLib Real.sqrt tanHalf) u)).shadowType
      = (setup (glmLib Real.sqrt tanHalf) u).shadowType ∧
    (key_callback (glmLib Real.sqrt tanHalf) GLFW_KEY_1 scancode p.code mods
        (setup (glmLib Real.sqrt tanHalf) u)).light
      = LightParams.recaliberate (glmLib Real.sqrt tanHalf)
        (LightParams.initMatrices (glmLib Real.sqrt tanHalf)) ∧
    (key_callback (glmLib Real.sqrt tanHalf) GLFW_KEY_1 scancode p.code mods
        (setup (glmLib Real.sqrt tanHalf) u))
      ≠ setup (glmLib Real.sqrt tanHalf) u := by
  have hV : (LightParams.recaliberate (glmLib Real.sqrt tanHalf)
        (LightParams.initMatrices (glmLib Real.sqrt tanHalf))).View
      ≠ (LightParams.initMatrices (glmLib Real.sqrt tanHalf)).View := by
    intro h
    have h1 := congrFun (congrFun h 0) 2
    rw [(recalView_entries tanHalf).1, (initView_entries tanHalf).1] at h1
    norm_num at h1
  have hS : (LightParams.recaliberate (glmLib Real.sqrt tanHalf)
        (LightParams.initMatrices (glmLib Real.sqrt tanHalf))).S
      ≠ (LightParams.initMatrices (glmLib Real.sqrt tanHalf)).S := by
    intro h
    have h1 := congrFun (congrFun h 0) 2
    have e1 : (LightParams.recaliberate (glmLib Real.sqrt tanHalf)
        (LightParams.initMatrices (glmLib Real.sqrt tanHalf))).S 0 2
        = 1 / 2 * (1 / tanHalf 45)
            * (LightParams.recaliberate (glmLib Real.sqrt tanHalf)
              (LightParams.initMatrices (glmLib Real.sqrt tanHalf))).View 0 2
          - 1 / 2 * (LightParams.recaliberate (glmLib Real.sqrt tanHalf)
              (LightParams.initMatrices (glmLib Real.sqrt tanHalf))).View 2 2 :=
      shadow_entry tanHalf _
    have e2 : (LightParams.initMatrices (glmLib Real.sqrt tanHalf)).S 0 2
        = 1 / 2 * (1 / tanHalf 45)
            * (LightParams.initMatrices (glmLib Real.sqrt tanHalf)).View 0 2
          - 1 / 2 * (LightParams.initMatrices (glmLib Real.sqrt tanHalf)).View 2 2 :=
      shadow_entry tanHalf _
    rw [(recalView_entries tanHalf).1, (recalView_entries tanHalf).2] at e1
    rw [(initView_entries tanHalf).1, (initView_entries tanHalf).2] at e2
    rw [e1, e2] at h1
    have h2 : 1 / tanHalf 45 ≠ 0 := one_div_ne_zero ht
    apply h2
    linarith
  have hk := mode_key_callback (glmLib Real.sqrt tanHalf)
    (setup (glmLib Real.sqrt tanHalf) u) ShadowMode.HardShadow p scancode mods
  have hkey : key_callback (glmLib Real.sqrt tanHalf) GLFW_KEY_1 scancode p.code mods
        (setup (glmLib Real.sqrt tanHalf) u)
      = { setup (glmLib Real.sqrt tanHalf) u with
          shadowType := u.sub_func_basicShadow
          light := LightParams.recaliberate (glmLib Real.sqrt tanHalf)
            (LightParams.initMatrices (glmLib Real.sqrt tanHalf)) } := hk
  refine ⟨⟨rfl, rfl⟩, ⟨rfl, rfl⟩, hV, hS, rfl, ?_, ?_, ?_⟩
  · rw [hkey]; rfl
  · rw [hkey]
  · rw [hkey]
    intro h
    exact hV (congrArg (fun s => s.light.View) h)

/-- C21 with the angle read in radians: `tanHalf fovy = tan (fovy / 2)`. -/
theorem C21_first_key_press_changes_view_witness :
    Real.tan (45 / 2) ≠ 0 ∧
    (LightParams.recaliberate (glmLib Real.sqrt (fun fovy => Real.tan (fovy / 2)))
        (LightParams.initMatrices (glmLib Real.sqrt (fun fovy => Real.tan (fovy / 2))))).View
      ≠ (LightParams.initMatrices (glmLib Real.sqrt (fun fovy => Real.tan (fovy / 2)))).View ∧
    (LightParams.recaliberate (glmLib Real.sqrt (fun fovy => Real.tan (fovy / 2)))
        (LightParams.initMatrices (glmLib Real.sqrt (fun fovy => Real.tan (fovy / 2))))).S
      ≠ (LightParams.initMatrices (glmLib Real.sqrt (fun fovy => Real.tan (fovy / 2)))).S :=
  have h := C21_first_key_press_changes_view (fun fovy => Real.tan (fovy / 2))
    tan_half_45_ne_zero ⟨0, 0, 0, 0, 0, 0, 0, 0, 0, 0, 0, 0⟩ KeyAction.PRESS 0 0
  ⟨tan_half_45_ne_zero, h.2.2.1, h.2.2.2.1⟩

end ShadowMappingSoft
